import Mathlib

set_option autoImplicit false

/-!
# Verification of the p5geometry scene-evaluation engine

This file gives a shallow embedding, in Lean 4, of the scene-evaluation core of
the p5geometry repository (src/src/params.js, src/src/transform.js,
src/src/geometry.js, src/src/scene.js, src/src/system/evaluator.js and the
generic graph module src/unnamed/part_001), together with theorems settling the
frozen claims about it.

Modelling conventions:

* JavaScript numbers are modelled as exact rationals (ℚ).  All arithmetic the
  claims exercise is +, -, *, / on values where the JS computation is exact or
  where the claim is about exact structural behaviour; floating-point rounding
  and NaN/Infinity corner cases of irrelevant code paths are outside the model
  and are noted where they occur.
* Dynamically typed JS values are modelled by the inductive `JSValue`.
* Transcendental host functions (Math.sin/cos/atan2/hypot, Math.PI) are not
  rational; they are abstracted into a `MathOracle` parameter.  Every theorem
  below holds for every oracle, and no claim's code path applies an oracle
  function, so nothing depends on a particular interpretation.
* The file `src/math.js` (and its copy `src/core/math.js`) is imported by the
  sources but is not part of the repository snapshot.  Its functions are
  modelled from the specification (§4.2) and are additionally pinned by in-tree
  code: the inline matrix product in scene.js (`matMultiplySafe`) fixes the
  column-major element formulas, and `composeInheritedParent` fixes slots 6/7
  as the translation components.  Such definitions carry a
  "Modelled from the spec:" doc comment.
* In-place mutation of shared JS objects (relations writing `obj.transform`)
  is modelled with an explicit store: scene objects live in a list of heap
  slots addressed by position, the per-call working array is a list of
  addresses, and the caller's persistent `scene.objects` are the first slots.
* JS exceptions are modelled with `Except String`.
-/

namespace P5

/-- A dynamically typed JavaScript value.  `native` marks a host function
(used only by the expression model). -/
inductive JSValue where
  | undef : JSValue
  | jsNull : JSValue
  | bool (b : Bool) : JSValue
  | num (q : ℚ) : JSValue
  | str (s : String) : JSValue
  | arr (elems : List JSValue) : JSValue
  | obj (fields : List (String × JSValue)) : JSValue
  | native (tag : String) : JSValue
deriving Repr

/-- Property read `v[k]`: `undefined` for a missing key or a non-object
receiver (JS property reads on primitives yield `undefined`; reads on
`undefined`/`null` throw, which callers below guard exactly as the source
does). -/
def getField : JSValue → String → JSValue
  | .obj fields, k =>
    match fields.lookup k with
    | some v => v
    | none => .undef
  | _, _ => (.undef)

/-- The JS `'k' in v` test (key presence on plain objects). -/
def hasField : JSValue → String → Bool
  | .obj fields, k => fields.any (fun p => p.1 == k)
  | _, _ => false

/-- JS truthiness. -/
def jsTruthy : JSValue → Bool
  | .undef => false
  | .jsNull => false
  | .bool b => b
  | .num q => !(q == 0)
  | .str s => !(s == "")
  | .arr _ => true
  | .obj _ => true
  | .native _ => true

/-- Whether a value is exactly `undefined`. -/
def isUndef : JSValue → Bool
  | .undef => true
  | _ => false

/-- Numeric reading of a value where the source performs arithmetic on it.
Non-numeric operands would produce NaN in JS; the claims only exercise numeric
operands, and the `0` default marks the out-of-model corner. -/
def asNum : JSValue → ℚ
  | .num q => q
  | _ => 0

/-- String rendering used in template-literal warnings. -/
def jsDisplay : JSValue → String
  | .undef => ("undefined" : String)
  | .jsNull => "null"
  | .bool b => if b then "true" else "false"
  | .num q => toString q
  | .str s => s
  | .arr _ => "[array]"
  | .obj _ => "[object Object]"
  | .native t => t

/-- JS `a || b` (value-returning or). -/
def jsOr (a b : JSValue) : JSValue :=
  if jsTruthy a then a else b

/-- JS `.length` where the source reads it (string length of a text value).
Non-string receivers give `undefined` (NaN downstream) in JS; out-of-model. -/
def jsLengthOf : JSValue → ℚ
  | .str s => s.length
  | .arr l => l.length
  | _ => 0

/-- Object spread `{...a, ...b}`: fields of `a` then `b`, later keys
overriding.  Spreading a non-object contributes nothing. -/
def objFieldsOf : JSValue → List (String × JSValue)
  | .obj fields => fields
  | _ => []

/-- Insert-or-overwrite for a string-keyed map, matching JS `Map.set` /
object assignment (existing key keeps its position, new key is appended). -/
def jsMapSet {α : Type} (m : List (String × α)) (k : String) (v : α) :
    List (String × α) :=
  if m.any (fun p => p.1 == k) then
    m.map (fun p => if p.1 == k then (k, v) else p)
  else m ++ [(k, v)]

/-- `{...a, ...b}` as a single object value. -/
def jsMergeObj (a b : JSValue) : JSValue :=
  .obj ((objFieldsOf b).foldl (fun fs p => jsMapSet fs p.1 p.2) (objFieldsOf a))

/-- A 2D point. -/
structure Vec2 where
  x : ℚ
  y : ℚ
deriving Repr, DecidableEq

/-- Axis-aligned bounds. -/
structure Bounds where
  bmin : Vec2
  bmax : Vec2
deriving Repr, DecidableEq

/-- Modelled from the spec: `lerp` of the missing `src/math.js`
("`linear` → `lerp(a,b,u)`"). -/
def lerp (a b t : ℚ) : ℚ := a + (b - a) * t

/-- Modelled from the spec: a 3×3 homogeneous matrix of the missing
`src/math.js`, stored column-major as in the in-tree inline product
(scene.js `matMultiplySafe`): slot `3*c+r` holds row `r` of column `c`;
slots 6/7 are the translation (scene.js `composeInheritedParent`). -/
structure Mat3 where
  m0 : ℚ
  m1 : ℚ
  m2 : ℚ
  m3 : ℚ
  m4 : ℚ
  m5 : ℚ
  m6 : ℚ
  m7 : ℚ
  m8 : ℚ
deriving Repr, DecidableEq

/-- Modelled from the spec: `mat3Identity` of the missing `src/math.js`. -/
def mat3Identity : Mat3 := ⟨1, 0, 0, 0, 1, 0, 0, 0, 1⟩

/-- Modelled from the spec: `mat3Multiply` of the missing `src/math.js`;
the element formulas are exactly those of the in-tree inline product in
scene.js (`matMultiplySafe`, lines 750-762). -/
def mat3Multiply (a b : Mat3) : Mat3 :=
  ⟨a.m0 * b.m0 + a.m3 * b.m1 + a.m6 * b.m2,
   a.m1 * b.m0 + a.m4 * b.m1 + a.m7 * b.m2,
   a.m2 * b.m0 + a.m5 * b.m1 + a.m8 * b.m2,
   a.m0 * b.m3 + a.m3 * b.m4 + a.m6 * b.m5,
   a.m1 * b.m3 + a.m4 * b.m4 + a.m7 * b.m5,
   a.m2 * b.m3 + a.m5 * b.m4 + a.m8 * b.m5,
   a.m0 * b.m6 + a.m3 * b.m7 + a.m6 * b.m8,
   a.m1 * b.m6 + a.m4 * b.m7 + a.m7 * b.m8,
   a.m2 * b.m6 + a.m5 * b.m7 + a.m8 * b.m8⟩

/-- Modelled from the spec: `mat3Translate` of the missing `src/math.js`. -/
def mat3Translate (tx ty : ℚ) : Mat3 := ⟨1, 0, 0, 0, 1, 0, tx, ty, 1⟩

/-- Modelled from the spec: `mat3Scale` of the missing `src/math.js`. -/
def mat3Scale (sx sy : ℚ) : Mat3 := ⟨sx, 0, 0, 0, sy, 0, 0, 0, 1⟩

/-- Modelled from the spec: `mat3Shear` of the missing `src/math.js`
(standard plane shear, column-major). -/
def mat3Shear (kx ky : ℚ) : Mat3 := ⟨1, ky, 0, kx, 1, 0, 0, 0, 1⟩

/-- Modelled from the spec: `applyMat3` of the missing `src/math.js`
("point transform is `M · [x,y,1]`"). -/
def applyMat3 (m : Mat3) (p : Vec2) : Vec2 :=
  ⟨m.m0 * p.x + m.m3 * p.y + m.m6, m.m1 * p.x + m.m4 * p.y + m.m7⟩

/-- Modelled from the spec: `computeBounds` of the missing `src/math.js`
("min/max over a point set; returns no bounds for an empty set"). -/
def computeBounds (points : List Vec2) : Option Bounds :=
  match points with
  | [] => none
  | p :: rest =>
    some (rest.foldl
      (fun b q =>
        ⟨⟨min b.bmin.x q.x, min b.bmin.y q.y⟩, ⟨max b.bmax.x q.x, max b.bmax.y q.y⟩⟩)
      ⟨p, p⟩)

/-- Host transcendental functions abstracted from `Math`.  All theorems hold
for every oracle; no claim's code path applies one. -/
structure MathOracle where
  msin : ℚ → ℚ
  mcos : ℚ → ℚ
  matan2 : ℚ → ℚ → ℚ
  mhypot : ℚ → ℚ → ℚ
  mpi : ℚ
  exprHost : String → ℚ → Except String JSValue

/-- The matrix as the JS array of nine numbers the source passes around. -/
def mat3ToJS (m : Mat3) : JSValue :=
  .arr [.num m.m0, .num m.m1, .num m.m2, .num m.m3, .num m.m4, .num m.m5,
        .num m.m6, .num m.m7, .num m.m8]

/-- Reading a JS nine-element array back as a matrix. -/
def asMat3 (v : JSValue) : Mat3 :=
  match v with
  | .arr l =>
    ⟨asNum (l.getD 0 .undef), asNum (l.getD 1 .undef), asNum (l.getD 2 .undef),
     asNum (l.getD 3 .undef), asNum (l.getD 4 .undef), asNum (l.getD 5 .undef),
     asNum (l.getD 6 .undef), asNum (l.getD 7 .undef), asNum (l.getD 8 .undef)⟩
  | _ => mat3Identity

/-- JS `Math.trunc`-style integer part used by the `%` operator
(rounds toward zero). -/
def jsTrunc (q : ℚ) : ℤ :=
  if 0 ≤ q then ⌊q⌋ else -⌊-q⌋

/-- The JS remainder `x % d` (sign of the dividend, `d ≠ 0`). -/
def jsRem (x d : ℚ) : ℚ := x - d * jsTrunc (x / d)

/-! ## params.js -/

/-- One keyframe. -/
structure Keyframe where
  t : ℚ
  value : JSValue
deriving Repr

/-- A keyframes param: ordered keys plus interpolation
(`step`/`linear`/`smooth`, default linear) and extrapolation
(`clamp`/`repeat`, default clamp), kept as the optional strings the
source destructures. -/
structure KfParam where
  keyframes : List Keyframe
  interpolation : Option String
  extrapolation : Option String
deriving Repr

/-- A time-varying parameter (params.js tagged union). -/
inductive Param where
  | constant (value : JSValue) : Param
  | keyframes (data : KfParam) : Param
  | expr (e : String) : Param
deriving Repr

/-- params.js `isVec2`: a truthy object with keys `x` and `y`. -/
def isVec2V (v : JSValue) : Bool :=
  match v with
  | .obj _ => hasField v "x" && hasField v "y"
  | _ => false

/-- params.js `interpolateValue`: numbers lerp, `{x,y}` objects lerp
component-wise, anything else snaps to the nearer key at `u = 1/2`. -/
def interpolateValue (a b : JSValue) (t : ℚ) : JSValue :=
  match a, b with
  | .num qa, .num qb => .num (lerp qa qb t)
  | a, b =>
    if isVec2V a && isVec2V b then
      .obj [("x", .num (lerp (asNum (getField a "x")) (asNum (getField b "x")) t)),
            ("y", .num (lerp (asNum (getField a "y")) (asNum (getField b "y")) t))]
    else if t < 1/2 then a else b

/-- One bracketing segment's interpolation (the tail of params.js
`evaluateKeyframes` once `k0`,`k1` are found). -/
def interpSeg (interp : Option String) (k0 k1 : Keyframe) (t : ℚ) : JSValue :=
  let span := k1.t - k0.t
  let localT := if span = 0 then 0 else (t - k0.t) / span
  if interp = some "step" then k0.value
  else if interp = some "smooth" then
    interpolateValue k0.value k1.value (localT * localT * (3 - 2 * localT))
  else interpolateValue k0.value k1.value localT

/-- The bracketing scan of params.js `evaluateKeyframes` (the `while` loop
advances `i` while `keyframes[i+1].t < t`); the callers below only reach it
for `first.t < t < last.t`, under which the empty tail is unreachable, just
as the loop never runs past the end in the source. -/
def evalSegments (interp : Option String) (k0 : Keyframe) :
    List Keyframe → ℚ → JSValue
  | [], _ => k0.value
  | k1 :: rest, t =>
    if k1.t < t then evalSegments interp k1 rest t
    else interpSeg interp k0 k1 t

/-- params.js `evaluateKeyframes` specialised to clamp extrapolation (the
form `valueAtRepeatedTime` invokes recursively); the general entry point
below agrees with it whenever extrapolation is not `repeat`. -/
def clampKfEval (interp : Option String) (first : Keyframe)
    (rest : List Keyframe) (t : ℚ) : JSValue :=
  let last := (first :: rest).getLast (by simp)
  if t ≤ first.t then first.value
  else if last.t ≤ t then last.value
  else evalSegments interp first rest t

/-- params.js `valueAtRepeatedTime`: wrap `t` into `[first.t, first.t + d)`
with the double JS remainder and re-evaluate under clamp semantics.  The
recursive call passes only `keyframes` and `extrapolation`, so the
interpolation mode reverts to the default (linear). -/
def valueAtRepeatedTime (first : Keyframe) (rest : List Keyframe) (t : ℚ) :
    JSValue :=
  let last := (first :: rest).getLast (by simp)
  let duration := last.t - first.t
  if duration = 0 then first.value
  else
    clampKfEval none first rest
      (jsRem (jsRem (t - first.t) duration + duration) duration + first.t)

/-- params.js `evaluateKeyframes` (empty keyframe lists raise). -/
def evaluateKeyframes (p : KfParam) (t : ℚ) : Except String JSValue :=
  match p.keyframes with
  | [] => .error "Keyframes must not be empty"
  | first :: rest =>
    let last := (first :: rest).getLast (by simp)
    if t ≤ first.t then
      if p.extrapolation = some "repeat" then
        .ok (valueAtRepeatedTime first rest t)
      else .ok first.value
    else if last.t ≤ t then
      if p.extrapolation = some "repeat" then
        .ok (valueAtRepeatedTime first rest t)
      else .ok last.value
    else .ok (evalSegments p.interpolation first rest t)

/-- params.js `evaluateParam`.  The `expr` arm hands the formula string to the
JavaScript host (`new Function`, see the expression model below for its
scoping semantics); the host's behaviour is the oracle's `exprHost`. -/
def evaluateParam (O : MathOracle) (p : Param) (t : ℚ) :
    Except String JSValue :=
  match p with
  | .constant v => .ok v
  | .keyframes d => evaluateKeyframes d t
  | .expr e => O.exprHost e t

end P5

namespace P5

/-! ## transform.js -/

/-- transform.js `TransformSpec`: five optional `Param`s. -/
structure TransformSpec where
  translate : Option Param
  rotate : Option Param
  scale : Option Param
  shear : Option Param
  matrix : Option Param
deriving Repr

/-- A `TransformSpec` with no parts (used where the source writes an object
with only some keys). -/
def emptyTS : TransformSpec := ⟨none, none, none, none, none⟩

/-- transform.js `evaluateTransform`: evaluate each present part at `t` and
left-fold the matrices from the identity in the fixed order
translate → rotate → scale → shear → matrix. -/
def evaluateTransform (O : MathOracle) (spec : Option TransformSpec) (t : ℚ) :
    Except String Mat3 :=
  match spec with
  | none => .ok mat3Identity
  | some s => do
    let l1 ← match s.translate with
      | none => pure []
      | some p => do
        let tr ← evaluateParam O p t
        pure [mat3Translate (asNum (getField tr "x")) (asNum (getField tr "y"))]
    let l2 ← match s.rotate with
      | none => pure []
      | some p => do
        let angle ← evaluateParam O p t
        pure [⟨O.mcos (asNum angle), O.msin (asNum angle), 0,
               -(O.msin (asNum angle)), O.mcos (asNum angle), 0, 0, 0, 1⟩]
    let l3 ← match s.scale with
      | none => pure []
      | some p => do
        let sc ← evaluateParam O p t
        match sc with
        | .num q => pure [mat3Scale q q]
        | v => pure [mat3Scale (asNum (getField v "x")) (asNum (getField v "y"))]
    let l4 ← match s.shear with
      | none => pure []
      | some p => do
        let sh ← evaluateParam O p t
        pure [mat3Shear (asNum (getField sh "x")) (asNum (getField sh "y"))]
    let l5 ← match s.matrix with
      | none => pure []
      | some p => do
        let mv ← evaluateParam O p t
        pure [asMat3 mv]
    .ok ((l1 ++ l2 ++ l3 ++ l4 ++ l5).foldl mat3Multiply mat3Identity)

/-- transform.js `transformPoints`. -/
def transformPoints (m : Mat3) (points : List Vec2) : List Vec2 :=
  points.map (applyMat3 m)

/-! ## geometry.js -/

/-- An evaluated (world-space) geometry.  `textVal`/`sizeVal` hold the extra
properties the evaluator's text branch attaches after evaluation. -/
structure EvaluatedGeometry where
  gtype : String
  points : List Vec2
  bounds : Option Bounds
  textVal : Option JSValue
  sizeVal : Option JSValue
deriving Repr

/-- Reading a JS `points` array as 2D points; the source maps over it
directly, so a missing/non-array value would throw. -/
def asPointsE (v : JSValue) : Except String (List Vec2) :=
  match v with
  | .arr l =>
    .ok (l.map (fun p => ⟨asNum (getField p "x"), asNum (getField p "y")⟩))
  | _ => .error "TypeError: points is not an array"

/-- geometry.js `geometryToPoints` over a dynamic geometry spec: local-space
points per type tag; unsupported tags raise (configuration error). -/
def geometryToPoints (O : MathOracle) (g : JSValue) :
    Except String (List Vec2) :=
  match getField g "type" with
  | .str "point" => .ok [⟨0, 0⟩]
  | .str "line" => asPointsE (getField g "points")
  | .str "polyline" => asPointsE (getField g "points")
  | .str "polygon" => asPointsE (getField g "points")
  | .str "rect" =>
    let w := asNum (getField g "width")
    let h := asNum (getField g "height")
    .ok [⟨-w / 2, -h / 2⟩, ⟨w / 2, -h / 2⟩, ⟨w / 2, h / 2⟩, ⟨-w / 2, h / 2⟩]
  | .str "circle" =>
    let r := asNum (getField g "radius")
    .ok ((List.range 32).map (fun i =>
      let angle := ((i : ℚ) / 32) * O.mpi * 2
      ⟨O.mcos angle * r, O.msin angle * r⟩))
  | v => .error ("Unsupported geometry type " ++ jsDisplay v)

/-- The `type` tag of a geometry spec as a string. -/
def geomTypeName (g : JSValue) : String :=
  match getField g "type" with
  | .str s => s
  | _ => ""

/-- geometry.js `evaluatePrimitiveGeometry`: local points, composed
transform, world points and bounds. -/
def evaluatePrimitiveGeometry (O : MathOracle) (g : JSValue)
    (tr : Option TransformSpec) (t : ℚ) : Except String EvaluatedGeometry := do
  let basePoints ← geometryToPoints O g
  let m ← evaluateTransform O tr t
  let worldPoints := transformPoints m basePoints
  .ok ⟨geomTypeName g, worldPoints, computeBounds worldPoints, none, none⟩

end P5

namespace P5

/-! ## scene.js data model -/

/-- An asset record. -/
structure Asset where
  id : String
  kind : String
  source : String
  loadState : Option String
deriving Repr

/-- A scene object.  `geometry` is the kind-specific dynamic spec;
`otype`/`params` carry the `type`/`params` properties math nodes use. -/
structure SceneObject where
  id : String
  kind : String
  geometry : JSValue
  transform : Option TransformSpec
  style : Option JSValue
  visibility : Option Bool
  generatedBy : Option String
  otype : Option String
  params : JSValue
deriving Repr

/-- Placeholder object for (unreachable) out-of-range store reads. -/
def dummySceneObject : SceneObject :=
  ⟨"", "", .undef, none, none, none, none, none, .undef⟩

instance : Inhabited SceneObject := ⟨dummySceneObject⟩

/-- scene.js `Relation` (tagged variant). -/
inductive Relation where
  | attach (id : String) (parentId childId : String) (offset : Option Param)
      (inheritRotation inheritScale : Option Bool) (enabled : Option Bool)
  | align (id : String) (aId bId : String) (anchor : Option String)
      (enabled : Option Bool)
  | followPath (id : String) (objectId pathId : String) (u : Param)
      (tangentAlign : Option Bool) (enabled : Option Bool)
  | repeatRel (id : String) (objectId : String) (count : ℚ)
      (deltaTransform : Option TransformSpec) (enabled : Option Bool)
  | other (id : String) (rtype : String) (enabled : Option Bool)
deriving Repr

/-- The relation's id. -/
def Relation.rid : Relation → String
  | .attach i _ _ _ _ _ _ => i
  | .align i _ _ _ _ => i
  | .followPath i _ _ _ _ _ => i
  | .repeatRel i _ _ _ _ => i
  | .other i _ _ => i

/-- The relation's `type` string. -/
def Relation.rtypeName : Relation → String
  | .attach _ _ _ _ _ _ _ => "attach"
  | .align _ _ _ _ _ => "align"
  | .followPath _ _ _ _ _ _ => "followPath"
  | .repeatRel _ _ _ _ _ => "repeat"
  | .other _ ty _ => ty

/-- The relation's `enabled` flag. -/
def Relation.enabledF : Relation → Option Bool
  | .attach _ _ _ _ _ _ e => e
  | .align _ _ _ _ e => e
  | .followPath _ _ _ _ _ e => e
  | .repeatRel _ _ _ _ e => e
  | .other _ _ e => e

/-- Integer ranges of a grid generator. -/
structure GridRange where
  i0 : ℚ
  i1 : ℚ
  j0 : ℚ
  j1 : ℚ
deriving Repr

/-- scene.js `Generator` (tagged variant; `instance` is a Lean keyword, so the
constructor is `inst`). -/
inductive Generator where
  | inst (id : String) (inputIds : List String)
      (transforms : Option (List TransformSpec))
  | grid (id : String) (inputIds : Option (List String))
      (sourceId : Option String) (a b : Option Vec2) (range : Option GridRange)
      (cellTransform : Option TransformSpec)
  | radial (id : String) (inputIds : Option (List String))
      (sourceId : Option String) (count radius : Option ℚ)
      (angleRange : Option (ℚ × ℚ)) (center : Option Vec2)
  | other (id : String) (gtype : String)
deriving Repr

/-- scene.js `Operator` (tagged variant); erode and dilate share the `morph`
constructor with an `erode` flag, as they share one evaluator in the source.
`iterations` and `kernel` are carried as declared but are never read by the
evaluator. -/
inductive Operator where
  | affine (id : String) (inputRefs : List String)
      (transform : Option TransformSpec) (outputRef : String)
      (enabled : Option Bool)
  | rasterize (id : String) (inputRefs : List String)
      (resolution : Option (Nat × Nat)) (outputRef : String)
      (enabled : Option Bool)
  | threshold (id : String) (inputRefs : List String) (level : ℚ)
      (outputRef : String) (enabled : Option Bool)
  | morph (id : String) (erode : Bool) (inputRefs : List String) (radius : ℚ)
      (iterations : Option ℚ) (kernel : Option String) (outputRef : String)
      (enabled : Option Bool)
  | other (id : String) (otype : String) (inputRefs : List String)
      (outputRef : String) (enabled : Option Bool)
deriving Repr

/-- A single-channel raster. -/
structure Raster where
  width : Nat
  height : Nat
  pixels : List Nat
  channel : String
  metaSource : Option String
deriving Repr

/-- The per-object result of one evaluation pass. -/
structure EvaluatedObject where
  objectId : String
  geometry : Option EvaluatedGeometry
  raster : Option Raster
  style : Option JSValue
  warnings : Option (List String)
  value : Option ℚ
deriving Repr

/-- Placeholder for (unreachable) out-of-range reads. -/
def dummyEvalObj : EvaluatedObject := ⟨"", none, none, none, none, none⟩

instance : Inhabited EvaluatedObject := ⟨dummyEvalObj⟩

/-- The scene root aggregate. -/
structure Scene where
  objects : List SceneObject
  relations : List Relation
  generators : List Generator
  operators : List Operator
  assets : List Asset
  styles : List JSValue
  renderConfig : Option JSValue
deriving Repr

/-- The render result (its `config` is the merged dynamic config object). -/
structure RenderResult where
  objects : List EvaluatedObject
  warnings : List String
  config : JSValue
deriving Repr

/-! ## scene.js generator expansion

The working object list is modelled as a store of heap slots (`store`,
addressed by position) plus the array of addresses (`arr`); the caller's
persistent `scene.objects` occupy slots `0..N-1`.  `byId` is the `Map` the
source builds, with `Map.set` overwrite semantics. -/

/-- Working state during generator expansion / relation resolution. -/
structure WorkSt where
  store : List SceneObject
  arr : List Nat
  byId : List (String × Nat)
  warns : List String
deriving Repr

/-- scene.js `resolveAssets`: default `loadState` to ready, warn on errors. -/
def resolveAssets (assets : List Asset) :
    List (String × Asset) × List String :=
  assets.foldl
    (fun (acc : List (String × Asset) × List String) asset =>
      let w :=
        if asset.loadState = some "error" then
          acc.2 ++ ["Asset " ++ asset.id ++ " failed to load"]
        else acc.2
      (jsMapSet acc.1 asset.id
        { asset with loadState := some (asset.loadState.getD "ready") }, w))
    ([], [])

/-- scene.js `cloneObject`: deep copy with a new id (the source serialises
through JSON; all fields of the model survive that round trip). -/
def cloneObject (o : SceneObject) (newId : String) : SceneObject :=
  { o with id := newId }

/-- Allocate a generated clone: push to the store, the working array and the
id map. -/
def allocClone (st : WorkSt) (clone : SceneObject) : WorkSt :=
  { store := st.store ++ [clone], arr := st.arr ++ [st.store.length],
    byId := jsMapSet st.byId clone.id st.store.length, warns := st.warns }

/-- The values a JS `for (let i = a; i <= b; i += 1)` loop visits. -/
def rangeList (a b : ℚ) : List ℚ :=
  (List.range (if a ≤ b then (⌊b - a⌋ + 1).toNat else 0)).map
    (fun k => a + (k : ℚ))

/-- scene.js `expandInstanceGenerator`. -/
def expandInstanceGenerator (O : MathOracle) (gid : String)
    (inputIds : List String) (transforms : Option (List TransformSpec))
    (st : WorkSt) (t : ℚ) : Except String WorkSt :=
  match inputIds.head? with
  | none =>
    .ok { st with warns := st.warns ++
      ["InstanceGenerator " ++ gid ++ " missing source undefined"] }
  | some sourceId =>
    match st.byId.lookup sourceId with
    | none =>
      .ok { st with warns := st.warns ++
        ["InstanceGenerator " ++ gid ++ " missing source " ++ sourceId] }
    | some addr =>
      let source := st.store.getD addr dummySceneObject
      match transforms with
      | none =>
        .ok { st with warns := st.warns ++
          ["InstanceGenerator " ++ gid ++ " has no transforms"] }
      | some [] =>
        .ok { st with warns := st.warns ++
          ["InstanceGenerator " ++ gid ++ " has no transforms"] }
      | some trs => do
        let baseMatrix ← evaluateTransform O source.transform t
        let go : WorkSt → Nat × TransformSpec → Except String WorkSt :=
          fun st' p => do
            let instMatrix ← evaluateTransform O (some p.2) t
            let composed := mat3Multiply baseMatrix instMatrix
            let clone := { cloneObject source
                (source.id ++ "__inst_" ++ gid ++ "_" ++ toString p.1) with
              transform := some { emptyTS with
                matrix := some (.constant (mat3ToJS composed)) },
              generatedBy := some gid }
            .ok (allocClone st' clone)
        trs.enum.foldlM (fun st' p => go st' p) st

/-- scene.js `expandGridGenerator`. -/
def expandGridGenerator (O : MathOracle) (gid : String)
    (inputIds : Option (List String)) (sourceId : Option String)
    (a b : Option Vec2) (range : Option GridRange)
    (cellTransform : Option TransformSpec) (st : WorkSt) (t : ℚ) :
    Except String WorkSt :=
  match a, b, range with
  | some av, some bv, some rg =>
    let sid := match sourceId with
      | some s => if s = "" then (inputIds.getD []).head? else some s
      | none => (inputIds.getD []).head?
    match sid.bind st.byId.lookup with
    | none =>
      .ok { st with warns := st.warns ++
        ["GridGenerator " ++ gid ++ " missing source"] }
    | some addr => do
      let source := st.store.getD addr dummySceneObject
      let baseMatrix ← evaluateTransform O source.transform t
      let cellBase ← match cellTransform with
        | some ct => evaluateTransform O (some ct) t
        | none => pure mat3Identity
      let cells := (rangeList rg.i0 rg.i1).flatMap
        (fun i => (rangeList rg.j0 rg.j1).map (fun j => (i, j)))
      cells.foldlM
        (fun st' (c : ℚ × ℚ) => do
          let translate ← evaluateTransform O
            (some { emptyTS with translate := some (.constant (.obj
              [("x", .num (av.x * c.1 + bv.x * c.2)),
               ("y", .num (av.y * c.1 + bv.y * c.2))])) }) t
          let composed := mat3Multiply baseMatrix (mat3Multiply translate cellBase)
          let clone := { cloneObject source
              (source.id ++ "__grid_" ++ gid ++ "_" ++ toString c.1 ++ "_" ++
               toString c.2) with
            transform := some { emptyTS with
              matrix := some (.constant (mat3ToJS composed)) },
            generatedBy := some gid }
          .ok (allocClone st' clone))
        st
  | _, _, _ =>
    .ok { st with warns := st.warns ++
      ["GridGenerator " ++ gid ++ " missing required params"] }

/-- scene.js `expandRadialGenerator`. -/
def expandRadialGenerator (O : MathOracle) (gid : String)
    (inputIds : Option (List String)) (sourceId : Option String)
    (count radius : Option ℚ) (angleRange : Option (ℚ × ℚ))
    (center : Option Vec2) (st : WorkSt) (t : ℚ) : Except String WorkSt :=
  match count, radius with
  | some cnt, some rad =>
    let sid := match sourceId with
      | some s => if s = "" then (inputIds.getD []).head? else some s
      | none => (inputIds.getD []).head?
    match sid.bind st.byId.lookup with
    | none =>
      .ok { st with warns := st.warns ++
        ["RadialGenerator " ++ gid ++ " missing source"] }
    | some addr => do
      let source := st.store.getD addr dummySceneObject
      let ctr := center.getD ⟨0, 0⟩
      let baseMatrix ← evaluateTransform O source.transform t
      let startEnd := angleRange.getD (0, O.mpi * 2)
      let step := if 1 < cnt then (startEnd.2 - startEnd.1) / (cnt - 1) else 0
      let n : Nat := if cnt ≤ 0 then 0 else (⌈cnt⌉).toNat
      (List.range n).foldlM
        (fun st' i => do
          let angle := startEnd.1 + step * (i : ℚ)
          let translate ← evaluateTransform O
            (some { emptyTS with translate := some (.constant (.obj
              [("x", .num (ctr.x + O.mcos angle * rad)),
               ("y", .num (ctr.y + O.msin angle * rad))])) }) t
          let composed := mat3Multiply baseMatrix translate
          let clone := { cloneObject source
              (source.id ++ "__radial_" ++ gid ++ "_" ++ toString i) with
            transform := some { emptyTS with
              matrix := some (.constant (mat3ToJS composed)) },
            generatedBy := some gid }
          .ok (allocClone st' clone))
        st
  | _, _ =>
    .ok { st with warns := st.warns ++
      ["RadialGenerator " ++ gid ++ " missing count or radius"] }

/-- scene.js `expandGenerators`: copy the base list, then run each generator
(unknown types warn). -/
def expandGenerators (O : MathOracle) (generators : List Generator)
    (baseObjects : List SceneObject) (t : ℚ) :
    Except String (List SceneObject × List Nat × List String) := do
  let arr0 := List.range baseObjects.length
  let byId0 := arr0.foldl
    (fun m addr => jsMapSet m ((baseObjects.getD addr dummySceneObject).id) addr) []
  let st0 : WorkSt := ⟨baseObjects, arr0, byId0, []⟩
  let stF ← generators.foldlM
    (fun st g =>
      match g with
      | .inst gid inputIds transforms =>
        expandInstanceGenerator O gid inputIds transforms st t
      | .grid gid inputIds sourceId a b range cellTransform =>
        expandGridGenerator O gid inputIds sourceId a b range cellTransform st t
      | .radial gid inputIds sourceId count radius angleRange center =>
        expandRadialGenerator O gid inputIds sourceId count radius angleRange
          center st t
      | .other gid gtype =>
        .ok { st with warns := st.warns ++
          ["Generator " ++ gid ++ " (" ++ gtype ++ ") not implemented"] })
    st0
  .ok (stF.store, stF.arr, stF.warns)

end P5

namespace P5

/-! ## scene.js relation resolution -/

/-- scene.js `matMultiplySafe`: the inline product; the `try`/`catch` never
fires on total values, so it is the plain product. -/
def matMultiplySafe (a b : Mat3) : Mat3 := mat3Multiply a b

/-- scene.js `composeInheritedParent`: keep the parent matrix when both flags
are inherited (the default), otherwise rebuild from its translation plus
selectively its rotation / column-norm scale. -/
def composeInheritedParent (O : MathOracle) (parentMatrix : Mat3)
    (inheritRotation inheritScale : Option Bool) : Mat3 :=
  let ir := inheritRotation ≠ some false
  let is' := inheritScale ≠ some false
  if ir && is' then parentMatrix
  else
    let baseTranslate := mat3Translate parentMatrix.m6 parentMatrix.m7
    if !ir && !is' then baseTranslate
    else
      let h1 := O.mhypot parentMatrix.m0 parentMatrix.m1
      let sx := if h1 = 0 then 1 else h1
      let h2 := O.mhypot parentMatrix.m3 parentMatrix.m4
      let sy := if h2 = 0 then 1 else h2
      let angle := O.matan2 parentMatrix.m1 parentMatrix.m0
      let c1 := if ir then
        mat3Multiply baseTranslate
          ⟨O.mcos angle, O.msin angle, 0, -(O.msin angle), O.mcos angle, 0,
           0, 0, 1⟩
        else baseTranslate
      if is' then mat3Multiply c1 (mat3Scale sx sy) else c1

/-- scene.js `anchorPoint`. -/
def anchorPoint (bounds : Bounds) (anchor : Option String) : Vec2 :=
  match anchor with
  | some "topLeft" => ⟨bounds.bmin.x, bounds.bmin.y⟩
  | _ => ⟨(bounds.bmin.x + bounds.bmax.x) / 2, (bounds.bmin.y + bounds.bmax.y) / 2⟩

/-- scene.js `pointAlongPath`: linear parameterisation over the segment
sequence (callers pass `u` clamped to `[0,1]` and a nonempty point list). -/
def pointAlongPath (points : List Vec2) (u : ℚ) : Vec2 :=
  match points with
  | [] => ⟨0, 0⟩
  | [p] => p
  | _ :: _ :: _ =>
    let segments := points.length - 1
    let scaled := u * (segments : ℚ)
    let idx : Nat := min (⌊scaled⌋).toNat (segments - 1)
    let localT := scaled - (idx : ℚ)
    let p0 := points.getD idx ⟨0, 0⟩
    let p1 := points.getD (idx + 1) ⟨0, 0⟩
    ⟨p0.x + (p1.x - p0.x) * localT, p0.y + (p1.y - p0.y) * localT⟩

/-- scene.js `tangentDirection`. -/
def tangentDirection (O : MathOracle) (points : List Vec2) (u : ℚ) : Vec2 :=
  match points with
  | [] => ⟨1, 0⟩
  | [_] => ⟨1, 0⟩
  | _ :: _ :: _ =>
    let segments := points.length - 1
    let scaled := u * (segments : ℚ)
    let idx : Nat := min (⌊scaled⌋).toNat (segments - 1)
    let nextIdx := min (idx + 1) (points.length - 1)
    let p0 := points.getD idx ⟨0, 0⟩
    let p1 := points.getD nextIdx ⟨0, 0⟩
    let dx := p1.x - p0.x
    let dy := p1.y - p0.y
    let h := O.mhypot dx dy
    let len := if h = 0 then 1 else h
    ⟨dx / len, dy / len⟩

/-- Overwrite one store slot's transform with a constant-matrix spec (the
assignment `x.transform = { matrix: { type: 'constant', value: m } }`). -/
def setTransformAt (st : WorkSt) (addr : Nat) (m : Mat3) : WorkSt :=
  { st with
    store := st.store.set addr
        ({ st.store.getD addr dummySceneObject with
           transform := some { emptyTS with
             matrix := some (.constant (mat3ToJS m)) } }) }

/-- scene.js `handleAttachRelation`. -/
def handleAttachRelation (O : MathOracle) (rid : String)
    (parentId childId : String) (offset : Option Param)
    (inheritRotation inheritScale : Option Bool) (st : WorkSt) (t : ℚ) :
    Except String WorkSt :=
  match st.byId.lookup parentId, st.byId.lookup childId with
  | some pAddr, some cAddr => do
    let parent := st.store.getD pAddr dummySceneObject
    let parentMatrix ← evaluateTransform O parent.transform t
    let offsetVal ← match offset with
      | some p => evaluateParam O p t
      | none => pure (.obj [("x", .num 0), ("y", .num 0)])
    let offsetMat ← evaluateTransform O
      (some { emptyTS with translate := some (.constant offsetVal) }) t
    let effectiveParent :=
      composeInheritedParent O parentMatrix inheritRotation inheritScale
    .ok (setTransformAt st cAddr (matMultiplySafe effectiveParent offsetMat))
  | _, _ =>
    .ok { st with warns := st.warns ++
      ["Attach relation " ++ rid ++ " missing parent/child"] }

/-- scene.js `handleAlignRelation`: move the first target's anchor onto the
second's. -/
def handleAlignRelation (O : MathOracle) (rid : String) (aId bId : String)
    (anchor : Option String) (st : WorkSt) (t : ℚ) : Except String WorkSt :=
  match st.byId.lookup aId, st.byId.lookup bId with
  | some aAddr, some bAddr =>
    let a := st.store.getD aAddr dummySceneObject
    let b := st.store.getD bAddr dummySceneObject
    if a.kind ≠ "primitive" ∨ b.kind ≠ "primitive" then
      .ok { st with warns := st.warns ++
        ["Align relation " ++ rid ++ " currently supports primitive objects only"] }
    else do
      let aEval ← evaluatePrimitiveGeometry O a.geometry a.transform t
      let bEval ← evaluatePrimitiveGeometry O b.geometry b.transform t
      match aEval.bounds, bEval.bounds with
      | some aB, some bB => do
        let aAnchor := anchorPoint aB anchor
        let bAnchor := anchorPoint bB anchor
        let delta : Vec2 := ⟨bAnchor.x - aAnchor.x, bAnchor.y - aAnchor.y⟩
        let current ← evaluateTransform O a.transform t
        let offsetMat ← evaluateTransform O
          (some { emptyTS with translate := some (.constant (.obj
            [("x", .num delta.x), ("y", .num delta.y)])) }) t
        .ok (setTransformAt st aAddr (matMultiplySafe current offsetMat))
      | _, _ => .ok st
  | _, _ =>
    .ok { st with warns := st.warns ++
      ["Align relation " ++ rid ++ " missing targets"] }

/-- scene.js `handleFollowPathRelation`. -/
def handleFollowPathRelation (O : MathOracle) (rid : String)
    (objectId pathId : String) (u : Param) (tangentAlign : Option Bool)
    (st : WorkSt) (t : ℚ) : Except String WorkSt :=
  match st.byId.lookup objectId, st.byId.lookup pathId with
  | some oAddr, some pAddr =>
    let obj := st.store.getD oAddr dummySceneObject
    let path := st.store.getD pAddr dummySceneObject
    if path.kind ≠ "primitive" ∨
        (geomTypeName path.geometry ≠ "polyline" ∧
         geomTypeName path.geometry ≠ "polygon") then
      .ok { st with warns := st.warns ++
        ["FollowPath " ++ rid ++ " requires a polyline/polygon path"] }
    else do
      let pathEval ← evaluatePrimitiveGeometry O path.geometry path.transform t
      if pathEval.points.length = 0 then .ok st
      else do
        let uv ← evaluateParam O u t
        let clampedU := max 0 (min 1 (asNum uv))
        let targetPoint := pointAlongPath pathEval.points clampedU
        let baseTransform ← evaluateTransform O obj.transform t
        let composed :=
          if tangentAlign = some true then
            let dir := tangentDirection O pathEval.points clampedU
            let angle := O.matan2 dir.y dir.x
            mat3Multiply baseTransform
              ⟨O.mcos angle, O.msin angle, 0, -(O.msin angle), O.mcos angle, 0,
               0, 0, 1⟩
          else baseTransform
        let translate ← evaluateTransform O
          (some { emptyTS with translate := some (.constant (.obj
            [("x", .num targetPoint.x), ("y", .num targetPoint.y)])) }) t
        .ok (setTransformAt st oAddr (matMultiplySafe composed translate))
  | _, _ =>
    .ok { st with warns := st.warns ++
      ["FollowPath relation " ++ rid ++ " missing object or path"] }

/-- scene.js `handleRepeatRelation`: `count-1` chained clones. -/
def handleRepeatRelation (O : MathOracle) (rid : String) (objectId : String)
    (count : ℚ) (deltaTransform : Option TransformSpec) (st : WorkSt) (t : ℚ) :
    Except String WorkSt :=
  match st.byId.lookup objectId with
  | none =>
    .ok { st with warns := st.warns ++
      ["Repeat relation " ++ rid ++ " missing target"] }
  | some addr => do
    let obj := st.store.getD addr dummySceneObject
    let cnt := max 1 (if count = 0 then 1 else count)
    let delta ← match deltaTransform with
      | some d => evaluateTransform O (some d) t
      | none => pure mat3Identity
    let current ← evaluateTransform O obj.transform t
    let n : Nat := ((⌈cnt⌉).toNat) - 1
    let step : WorkSt × Mat3 → Nat → WorkSt × Mat3 := fun acc i =>
      let cur := mat3Multiply acc.2 delta
      let clone := { cloneObject obj
          (obj.id ++ "__repeat_" ++ rid ++ "_" ++ toString (i + 1)) with
        transform := some { emptyTS with
          matrix := some (.constant (mat3ToJS cur)) },
        generatedBy := some rid }
      (allocClone acc.1 clone, cur)
    .ok (((List.range n).foldl step (st, current)).1)

/-- scene.js `applyRelations`: iterate relations in order, skipping disabled
ones; unknown types warn.  The id map is built from the working array with
`Map.set` overwrite semantics, and repeat clones join it. -/
def applyRelations (O : MathOracle) (store : List SceneObject)
    (arr : List Nat) (relations : List Relation) (t : ℚ) :
    Except String (List SceneObject × List Nat × List String) := do
  let byId0 := arr.foldl
    (fun m addr => jsMapSet m ((store.getD addr dummySceneObject).id) addr) []
  let st0 : WorkSt := ⟨store, arr, byId0, []⟩
  let stF ← relations.foldlM
    (fun st r =>
      if r.enabledF = some false then .ok st
      else
        match r with
        | .attach rid parentId childId offset ir is' _ =>
          handleAttachRelation O rid parentId childId offset ir is' st t
        | .align rid aId bId anchor _ =>
          handleAlignRelation O rid aId bId anchor st t
        | .followPath rid objectId pathId u tangentAlign _ =>
          handleFollowPathRelation O rid objectId pathId u tangentAlign st t
        | .repeatRel rid objectId count deltaTransform _ =>
          handleRepeatRelation O rid objectId count deltaTransform st t
        | .other rid rtype _ =>
          .ok { st with warns := st.warns ++
            ["Relation " ++ rid ++ " of type " ++ rtype ++
             " is not yet implemented"] })
    st0
  .ok (stF.store, stF.arr, stF.warns)

end P5

namespace P5

/-! ## scene.js object evaluation -/

/-- scene.js `evaluateObjects`: walk the working array, silently skipping
objects with `visibility === false`; primitives evaluate their geometry, text
objects evaluate a rect placeholder gated on font-asset readiness, all other
kinds warn. -/
def evaluateObjectsScene (O : MathOracle) (store : List SceneObject)
    (t : ℚ) (assets : List (String × Asset)) :
    List Nat → Except String (List EvaluatedObject × List String)
  | [] => .ok ([], [])
  | addr :: rest =>
    let obj := store.getD addr dummySceneObject
    if obj.visibility = some false then
      evaluateObjectsScene O store t assets rest
    else if obj.kind = "primitive" then do
      let g ← evaluatePrimitiveGeometry O obj.geometry obj.transform t
      let (evs, ws) ← evaluateObjectsScene O store t assets rest
      .ok (⟨obj.id, some g, none, obj.style, none, none⟩ :: evs, ws)
    else if obj.kind = "text" then
      let fontAssetId := getField obj.geometry "fontAssetId"
      let asset := match fontAssetId with
        | .str s => assets.lookup s
        | _ => none
      match asset with
      | some a =>
        if a.loadState ≠ some "ready" then do
          let (evs, ws) ← evaluateObjectsScene O store t assets rest
          .ok (evs, ("Text object " ++ obj.id ++ " missing font asset " ++
            jsDisplay fontAssetId) :: ws)
        else do
          let size := asNum (jsOr (getField obj.geometry "size") (.num 16))
          let len := if hasField obj.geometry "text" then
              jsLengthOf (getField obj.geometry "text")
            else 1
          let placeholder ← evaluatePrimitiveGeometry O
            (.obj [("type", .str "rect"), ("width", .num (size * 0.6 * len)),
                   ("height", .num size)]) obj.transform t
          let (evs, ws) ← evaluateObjectsScene O store t assets rest
          .ok (⟨obj.id, some placeholder, none, obj.style,
                some ["Text rendering placeholder"], none⟩ :: evs, ws)
      | none => do
        let (evs, ws) ← evaluateObjectsScene O store t assets rest
        .ok (evs, ("Text object " ++ obj.id ++ " missing font asset " ++
          jsDisplay fontAssetId) :: ws)
    else do
      let (evs, ws) ← evaluateObjectsScene O store t assets rest
      .ok (evs, ("Object " ++ obj.id ++ " of kind " ++ obj.kind ++
        " evaluation not implemented") :: ws)

/-! ## Operator pipeline

The operator evaluators are byte-identical in scene.js and
system/evaluator.js (the latter was copied from the former, see the comment
at evaluator.js line 47); they are modelled once.  An operator input is
either a prior operator output or an evaluated base object, and a
raster-less (resp. geometry-less) input is passed through as-is. -/

/-- A value an operator can produce. -/
inductive OpResult where
  | geom (g : EvaluatedGeometry)
  | rast (r : Raster)
deriving Repr

/-- A value in the operator `outputs` record / input position: a proper
result, or an evaluated object passed through unchanged. -/
inductive OpVal where
  | res (r : OpResult)
  | evo (o : EvaluatedObject)
deriving Repr

/-- The `input.geometry` read on either input shape. -/
def OpVal.geometryOf : OpVal → Option EvaluatedGeometry
  | .res (.geom g) => some g
  | .res (.rast _) => none
  | .evo o => o.geometry

/-- The `input.raster` read on either input shape. -/
def OpVal.rasterOf : OpVal → Option Raster
  | .res (.rast r) => some r
  | .res (.geom _) => none
  | .evo o => o.raster

/-- scene.js `isPointInPolygon` (even-odd rule with the epsilon-guarded
division; JS divides exactly here unless the denominator is exactly zero,
an out-of-model corner noted in the header). -/
def isPointInPolygon (p : Vec2) (poly : List Vec2) : Bool :=
  let n := poly.length
  (List.range n).foldl
    (fun inside i =>
      let pi' := poly.getD i ⟨0, 0⟩
      let pj := poly.getD ((i + n - 1) % n) ⟨0, 0⟩
      let intersect :=
        (decide (p.y < pi'.y) != decide (p.y < pj.y)) &&
        decide (p.x < (pj.x - pi'.x) * (p.y - pi'.y) / (pj.y - pi'.y + 1/1000000)
          + pi'.x)
      if intersect then !inside else inside)
    false

/-- scene.js `pointInsideGeometry`. -/
def pointInsideGeometry (p : Vec2) (g : EvaluatedGeometry) : Bool :=
  if g.gtype = "circle" ∨ g.gtype = "rect" ∨ g.gtype = "polygon" ∨
     g.gtype = "polyline" ∨ g.gtype = "line" then
    isPointInPolygon p g.points
  else if g.gtype = "point" then
    decide (|p.x| < 1/1000000) && decide (|p.y| < 1/1000000)
  else false

/-- scene.js `evaluateAffineOperator`: re-transform geometry, pass rasters
through, degenerate empty polyline otherwise. -/
def evaluateAffineOperator (O : MathOracle) (transform : Option TransformSpec)
    (inputs : List OpVal) (t : ℚ) : Except String OpVal := do
  let m ← evaluateTransform O transform t
  match inputs with
  | [] => .error "TypeError: operator input is undefined"
  | input :: _ =>
    match input.geometryOf with
    | some g =>
      let tp := transformPoints m g.points
      .ok (.res (.geom { g with points := tp, bounds := computeBounds tp }))
    | none =>
      match input.rasterOf with
      | some r => .ok (.res (.rast r))
      | none => .ok (.res (.geom ⟨"polyline", [], none, none, none⟩))

/-- scene.js `evaluateThresholdOperator`: binarise at `level`; raster-less
inputs are returned unchanged. -/
def evaluateThresholdOperator (level : ℚ) (inputs : List OpVal) :
    Except String OpVal :=
  match inputs with
  | [] => .error "TypeError: operator input is undefined"
  | input :: _ =>
    match input.rasterOf with
    | none => .ok input
    | some r =>
      .ok (.res (.rast ⟨r.width, r.height,
        r.pixels.map (fun p => if level ≤ (p : ℚ) then 255 else 0),
        "alpha", none⟩))

/-- scene.js `evaluateRasterizeOperator`. -/
def evaluateRasterizeOperator (resolution : Option (Nat × Nat))
    (inputs : List OpVal) : Except String OpVal :=
  match inputs with
  | [] => .error "TypeError: operator input is undefined"
  | input :: _ =>
    match input.geometryOf with
    | none => .ok input
    | some g =>
      let bounds := g.bounds.getD ⟨⟨-1, -1⟩, ⟨1, 1⟩⟩
      let w := match resolution with
        | some (a, _) => if a = 0 then 64 else a
        | none => 64
      let h := match resolution with
        | some (_, b) => if b = 0 then 64 else b
        | none => 64
      let pixels := (List.range h).flatMap (fun y =>
        (List.range w).map (fun x =>
          let wx := bounds.bmin.x +
            ((bounds.bmax.x - bounds.bmin.x) * (x : ℚ)) / (max 1 (w - 1) : ℕ)
          let wy := bounds.bmin.y +
            ((bounds.bmax.y - bounds.bmin.y) * (y : ℚ)) / (max 1 (h - 1) : ℕ)
          if pointInsideGeometry ⟨wx, wy⟩ g then (255 : ℕ) else 0))
      .ok (.res (.rast ⟨w, h, pixels, "alpha", some g.gtype⟩))

/-- One output pixel of the morphological scan: min (erode) or max (dilate)
over the square neighbourhood of the given radius, out-of-bounds neighbours
skipped. -/
def morphAt (r : Raster) (radius : ℤ) (erode : Bool) (x y : Nat) : Nat :=
  let offsets := (List.range (2 * radius + 1).toNat).map
    (fun k => -radius + (k : ℤ))
  offsets.foldl
    (fun e dy =>
      offsets.foldl
        (fun e dx =>
          let nx := (x : ℤ) + dx
          let ny := (y : ℤ) + dy
          if nx < 0 ∨ ny < 0 ∨ (r.width : ℤ) ≤ nx ∨ (r.height : ℤ) ≤ ny then e
          else
            let v := r.pixels.getD (ny * r.width + nx).toNat 0
            if erode then min e v else max e v)
        e)
    (if erode then 255 else 0)

/-- scene.js `evaluateMorphOperator`: one pass of erode/dilate with effective
radius `max 1 ⌊radius⌋`; raster-less inputs are returned unchanged.  The
declared `iterations`/`kernel` params are never read. -/
def evaluateMorphOperator (radius : ℚ) (erode : Bool) (inputs : List OpVal) :
    Except String OpVal :=
  match inputs with
  | [] => .error "TypeError: operator input is undefined"
  | input :: _ =>
    match input.rasterOf with
    | none => .ok input
    | some r =>
      let rad : ℤ := max 1 ⌊radius⌋
      let filled := (List.range r.height).flatMap (fun y =>
        (List.range r.width).map (fun x => morphAt r rad erode x y))
      let base := filled.take r.pixels.length
      let out := base ++ List.replicate (r.pixels.length - base.length) 0
      .ok (.res (.rast ⟨r.width, r.height, out, r.channel, none⟩))

/-- The fields read from an operator by the dispatch loop. -/
def Operator.oid : Operator → String
  | .affine i _ _ _ _ => i
  | .rasterize i _ _ _ _ => i
  | .threshold i _ _ _ _ => i
  | .morph i _ _ _ _ _ _ _ => i
  | .other i _ _ _ _ => i

/-- The operator's `inputRefs`. -/
def Operator.inputRefsF : Operator → List String
  | .affine _ r _ _ _ => r
  | .rasterize _ r _ _ _ => r
  | .threshold _ r _ _ _ => r
  | .morph _ _ r _ _ _ _ _ => r
  | .other _ _ r _ _ => r

/-- The operator's `outputRef`. -/
def Operator.outputRefF : Operator → String
  | .affine _ _ _ o _ => o
  | .rasterize _ _ _ o _ => o
  | .threshold _ _ _ o _ => o
  | .morph _ _ _ _ _ _ o _ => o
  | .other _ _ _ o _ => o

/-- The operator's `enabled` flag. -/
def Operator.enabledF : Operator → Option Bool
  | .affine _ _ _ _ e => e
  | .rasterize _ _ _ _ e => e
  | .threshold _ _ _ _ e => e
  | .morph _ _ _ _ _ _ _ e => e
  | .other _ _ _ _ e => e

/-- scene.js `evaluateOperators`: run the operators in declared order against
prior outputs and evaluated base objects; unresolved inputs and unknown
types warn and skip. -/
def evaluateOperators (O : MathOracle) (operators : List Operator)
    (objects : List EvaluatedObject) (t : ℚ) :
    Except String (List (String × OpVal) × List String) := do
  let byId := objects.foldl (fun m o => jsMapSet m o.objectId o) []
  let step : List (String × OpVal) × List String → Operator →
      Except String (List (String × OpVal) × List String) := fun acc op => do
    if op.enabledF = some false then .ok acc
    else
      let inputsOpt := op.inputRefsF.map (fun ref =>
        match acc.1.lookup ref with
        | some v => some v
        | none => (byId.lookup ref).map OpVal.evo)
      if inputsOpt.any (fun i => i.isNone) then
        .ok (acc.1, acc.2 ++ ["Operator " ++ op.oid ++ " missing inputs"])
      else
        let inputs := inputsOpt.reduceOption
        match op with
        | .affine _ _ transform outputRef _ => do
          let r ← evaluateAffineOperator O transform inputs t
          .ok (jsMapSet acc.1 outputRef r, acc.2)
        | .threshold _ _ level outputRef _ => do
          let r ← evaluateThresholdOperator level inputs
          .ok (jsMapSet acc.1 outputRef r, acc.2)
        | .rasterize _ _ resolution outputRef _ => do
          let r ← evaluateRasterizeOperator resolution inputs
          .ok (jsMapSet acc.1 outputRef r, acc.2)
        | .morph _ erode _ radius _ _ outputRef _ => do
          let r ← evaluateMorphOperator radius erode inputs
          .ok (jsMapSet acc.1 outputRef r, acc.2)
        | .other oid otype _ _ _ =>
          .ok (acc.1, acc.2 ++ ["Operator " ++ oid ++ " (" ++ otype ++
            ") not implemented"])
  operators.foldlM step ([], [])

/-- The merge-back update of an existing evaluated entry: geometry results
overwrite `geometry`, anything else (raster results, and passed-through
inputs, whose `type` is undefined) lands in the raster branch. -/
def mergeUpdate (o : EvaluatedObject) (v : OpVal) : EvaluatedObject :=
  match v with
  | .res (.geom g) => { o with geometry := some g }
  | .res (.rast r) => { o with raster := some r }
  | .evo e => { o with raster := e.raster }

/-- The appended entry for an output id with no existing evaluated entry. -/
def mergeNewEntry (id : String) (v : OpVal) : EvaluatedObject :=
  { objectId := id,
    geometry := match v with | .res (.geom g) => some g | _ => none,
    raster := match v with | .res (.rast r) => some r | _ => none,
    style := none, warnings := none, value := none }

/-- scene.js `mergeOperatorResults`. -/
def mergeOperatorResults (baseObjects : List EvaluatedObject)
    (outputs : List (String × OpVal)) : List EvaluatedObject :=
  outputs.foldl
    (fun merged p =>
      match merged.findIdx? (fun o => o.objectId == p.1) with
      | some idx => merged.set idx (mergeUpdate (merged.getD idx dummyEvalObj) p.2)
      | none => merged ++ [mergeNewEntry p.1 p.2])
    baseObjects

/-- scene.js `renderScene`: the orchestrated pass.  On top of the
`RenderResult` the model returns the final store, whose first
`scene.objects.length` slots are the caller's persistent objects after the
call (the source mutates them in place through shared references). -/
def renderScene (O : MathOracle) (scene : Scene) (t : ℚ)
    (overrideConfig : Option JSValue) :
    Except String (RenderResult × List SceneObject) := do
  let config := jsMergeObj (scene.renderConfig.getD (.obj []))
    (overrideConfig.getD (.obj []))
  let (assetsReady, w1) := resolveAssets scene.assets
  let (store1, arr1, w2) ← expandGenerators O scene.generators scene.objects t
  let (store2, arr2, w3) ← applyRelations O store1 arr1 scene.relations t
  let (evaluated, w4) ← evaluateObjectsScene O store2 t assetsReady arr2
  let (outputs, w5) ← evaluateOperators O scene.operators evaluated t
  let merged := mergeOperatorResults evaluated outputs
  .ok (⟨merged, w1 ++ w2 ++ w3 ++ w4 ++ w5, config⟩, store2)

end P5

namespace P5

/-! ## system/evaluator.js: reference resolution and object evaluation

This module keeps its own `evaluateObjects` with reference resolution against
the map of already-evaluated objects (plus the synthetic `time` entry).
`resolveParam` reports failures through `console.warn`; those messages are
returned in a separate list (`console warnings`) distinct from the
`RenderResult` warnings list. -/

/-- Whether a value is a duck-typed reference `{type:'ref', ...}`. -/
def isRefObj (v : JSValue) : Bool :=
  match v with
  | .obj _ =>
    match getField v "type" with
    | .str s => s == "ref"
    | _ => false
  | _ => false

/-- The dotted-path walk of `resolveParam`: follow each key on the current
value, falling back to its nested `geometry` fields, else default to `0`
with one console warning. -/
def walkPath (tid tprop : String) :
    List String → JSValue → JSValue × List String
  | [], val => (val, [])
  | k :: rest, val =>
    if jsTruthy val && !isUndef (getField val k) then
      walkPath tid tprop rest (getField val k)
    else
      let geo := getField val "geometry"
      if jsTruthy val && jsTruthy geo && !isUndef (getField geo k) then
        walkPath tid tprop rest (getField geo k)
      else (.num 0, ["Property not found: " ++ tprop ++ " on " ++ tid])

/-- evaluator.js `resolveParam`: literals pass through; references look up
the target in the evaluated-object map and walk the dotted property path.
A missing target resolves to `0` with one console warning naming the id.
(The only raising corner is a reference whose `targetProp` is not a string,
where the source would call `.split` on a non-string.) -/
def resolveParam (param : JSValue) (m : List (String × JSValue)) :
    Except String (JSValue × List String) :=
  if isRefObj param then
    let tidV := getField param "targetId"
    let target := match tidV with
      | .str s => m.lookup s
      | _ => none
    match target with
    | none => .ok (.num 0, ["Reference target not found: " ++ jsDisplay tidV])
    | some tv =>
      match getField param "targetProp" with
      | .str tprop => .ok (walkPath (jsDisplay tidV) tprop (tprop.splitOn ".") tv)
      | v => .error ("TypeError: split is not a function on " ++ jsDisplay v)
  else .ok (param, [])

/-- evaluator.js `resolveObjectParams`: resolve every top-level entry of a
params/geometry object. -/
def resolveObjectParams (params : JSValue) (m : List (String × JSValue)) :
    Except String (JSValue × List String) :=
  match params with
  | .obj fields => do
    let r ← fields.foldlM
      (fun (acc : List (String × JSValue) × List String) p => do
        let (v, w) ← resolveParam p.2 m
        pure (acc.1 ++ [(p.1, v)], acc.2 ++ w))
      ([], [])
    .ok (.obj r.1, r.2)
  | .undef => .error "TypeError: Object.entries called on undefined"
  | .jsNull => .error "TypeError: Object.entries called on null"
  | _ => .ok (.obj [], [])

/-- evaluator.js `resolveStyle`: inline styles pass through; `{mode:'ref'}`
styles resolve against the named style list with shallow overrides. -/
def resolveStyle (style : Option JSValue) (styles : List JSValue) :
    Option JSValue :=
  match style with
  | none => none
  | some st =>
    if jsTruthy (getField st "strokeColor") || jsTruthy (getField st "fillColor")
        || isUndef (getField st "mode") then some st
    else
      match getField st "mode" with
      | .str "ref" =>
        let refId := getField st "refId"
        let baseStyle := styles.find? (fun s =>
          match getField s "id", refId with
          | .str sid, .str r => sid == r
          | _, _ => false)
        match baseStyle with
        | none => none
        | some base =>
          if jsTruthy (getField st "overrides") then
            some (jsMergeObj base (getField st "overrides"))
          else some base
      | _ => some st

/-- JS-value encoding of an evaluated geometry, as stored in the
evaluated-object map and walked by `resolveParam`. -/
def encodeGeometry (g : EvaluatedGeometry) : JSValue :=
  .obj ([("type", .str g.gtype),
         ("points", .arr (g.points.map (fun p =>
           .obj [("x", .num p.x), ("y", .num p.y)]))),
         ("bounds", match g.bounds with
           | none => .jsNull
           | some b => .obj [("min", .obj [("x", .num b.bmin.x), ("y", .num b.bmin.y)]),
                             ("max", .obj [("x", .num b.bmax.x), ("y", .num b.bmax.y)])])]
        ++ (match g.textVal with | some v => [("text", v)] | none => [])
        ++ (match g.sizeVal with | some v => [("size", v)] | none => []))

/-- JS-value encoding of an evaluated object, keyed as the source's object
literals (`{objectId, geometry, style}` / `{objectId, value}`). -/
def encodeEvalObj (e : EvaluatedObject) : JSValue :=
  match e.geometry, e.value with
  | some g, _ =>
    .obj [("objectId", .str e.objectId), ("geometry", encodeGeometry g),
          ("style", e.style.getD .undef)]
  | none, some v => .obj [("objectId", .str e.objectId), ("value", .num v)]
  | none, none => .obj [("objectId", .str e.objectId)]

/-- Resolve the constant-translate part of a transform before evaluation
(evaluator.js lines 401-406): a shallow copy of the spec whose
`translate.value.x/.y` have been resolved. -/
def resolveTransformTranslate (tr : Option TransformSpec)
    (m : List (String × JSValue)) :
    Except String (Option TransformSpec × List String) :=
  match tr with
  | none => .ok (none, [])
  | some spec =>
    match spec.translate with
    | some (.constant v) => do
      let (tx, w1) ← resolveParam (getField v "x") m
      let (ty, w2) ← resolveParam (getField v "y") m
      .ok (some { spec with
        translate := some (.constant (.obj [("x", tx), ("y", ty)])) }, w1 ++ w2)
    | _ => .ok (some spec, [])

/-- evaluator.js `evaluateObjects`: reference-resolving object evaluation.
Returns the evaluated list, the `RenderResult` warnings this pass appends,
and the console warnings produced by reference resolution. -/
def evaluateObjectsEv (O : MathOracle) (t : ℚ)
    (assets : List (String × Asset)) (globalStyles : Option (List JSValue)) :
    List SceneObject → List (String × JSValue) →
    Except String (List EvaluatedObject × List String × List String)
  | [], _ => .ok ([], [], [])
  | obj :: rest, emap =>
    if obj.visibility = some false then
      evaluateObjectsEv O t assets globalStyles rest emap
    else do
      let style := match globalStyles with
        | some gs => resolveStyle obj.style gs
        | none => obj.style
      let (resolvedGeo, cw1) ← resolveObjectParams obj.geometry emap
      let (transform, cw2) ← resolveTransformTranslate obj.transform emap
      if obj.kind = "primitive" then do
        let evalGeo ← evaluatePrimitiveGeometry O resolvedGeo transform t
        let evalObj : EvaluatedObject := ⟨obj.id, some evalGeo, none, style, none, none⟩
        let emap' := jsMapSet emap obj.id (encodeEvalObj evalObj)
        let (evs, ws, cws) ← evaluateObjectsEv O t assets globalStyles rest emap'
        .ok (evalObj :: evs, ws, cw1 ++ cw2 ++ cws)
      else if obj.kind = "text" then do
        let evalGeo ← evaluatePrimitiveGeometry O
          (.obj [("type", .str "rect"), ("width", .num 50), ("height", .num 20)])
          transform t
        let (textV, cw3) ← resolveParam (getField obj.geometry "text") emap
        let text := jsOr textV (.str "text")
        let (sizeV, cw4) ← resolveParam (getField obj.geometry "size") emap
        let size := jsOr sizeV (.num 16)
        let evalGeo' := { evalGeo with
          gtype := "text", textVal := some text, sizeVal := some size }
        let evalObj : EvaluatedObject := ⟨obj.id, some evalGeo', none, style, none, none⟩
        let emap' := jsMapSet emap obj.id (encodeEvalObj evalObj)
        let (evs, ws, cws) ← evaluateObjectsEv O t assets globalStyles rest emap'
        .ok (evalObj :: evs, ws, cw1 ++ cw2 ++ cw3 ++ cw4 ++ cws)
      else if obj.kind = "math" then do
        if isUndef obj.params then
          .error "TypeError: cannot read properties of undefined (reading input)"
        else do
          let (inputV, cw3) ← resolveParam (getField obj.params "input") emap
          let input := asNum (jsOr inputV (.num 0))
          let (result, cwm) ←
            if obj.otype = some "sin" then do
              let (freqV, a1) ← resolveParam (getField obj.params "freq") emap
              let (ampV, a2) ← resolveParam (getField obj.params "amp") emap
              let (phaseV, a3) ← resolveParam (getField obj.params "phase") emap
              let freq := asNum (jsOr freqV (.num 1))
              let amp := asNum (jsOr ampV (.num 1))
              let phase := asNum (jsOr phaseV (.num 0))
              pure (O.msin (input * freq + phase) * amp, a1 ++ a2 ++ a3)
            else if obj.otype = some "cos" then do
              let (freqV, a1) ← resolveParam (getField obj.params "freq") emap
              let (ampV, a2) ← resolveParam (getField obj.params "amp") emap
              let (phaseV, a3) ← resolveParam (getField obj.params "phase") emap
              let freq := asNum (jsOr freqV (.num 1))
              let amp := asNum (jsOr ampV (.num 1))
              let phase := asNum (jsOr phaseV (.num 0))
              pure (O.mcos (input * freq + phase) * amp, a1 ++ a2 ++ a3)
            else
              pure ((0 : ℚ), ([] : List String))
          let evalObj : EvaluatedObject := ⟨obj.id, none, none, none, none, some result⟩
          let emap' := jsMapSet emap obj.id (encodeEvalObj evalObj)
          let (evs, ws, cws) ← evaluateObjectsEv O t assets globalStyles rest emap'
          .ok (evalObj :: evs, ws, cw1 ++ cw2 ++ cw3 ++ cwm ++ cws)
      else do
        let (evs, ws, cws) ← evaluateObjectsEv O t assets globalStyles rest emap
        .ok (evs, ("Object " ++ obj.id ++ " of kind " ++ obj.kind ++
          " evaluation not implemented") :: ws, cw1 ++ cw2 ++ cws)

/-- The initial evaluated-object map, holding the synthetic `time` entry. -/
def initialEvalMap (t : ℚ) : List (String × JSValue) :=
  jsMapSet [] "time" (.obj [("t", .num t), ("value", .num t)])

end P5

namespace P5

/-! ## Core/Graph (src/unnamed/part_001)

`calculateRanks` is a memoized depth-first walk with a `processing` set for
cycle detection; cycles warn to the console and yield rank `Infinity`
(modelled as `⊤` in `WithTop ℤ`; the `maxRank + 1` arithmetic matches JS,
where `Infinity + 1 = Infinity`).  The source recursion is bounded by the
processing-set discipline; the model makes that bound explicit with a fuel
argument that `calculateRanks` instantiates at `nodes.length + 1`, which the
theorems below show is never exhausted (each nested call pushes a distinct
node id onto `proc`). -/

/-- Memo table and console warnings of the rank walk. -/
structure GSt where
  memo : List (String × WithTop ℤ)
  warns : List String

/-- The node map as id ↦ dependency ids (`new Map(nodes.map(...))`,
last-wins). -/
def nodeMapOf {α : Type} (nodes : List α) (getId : α → String)
    (getDeps : α → List String) : List (String × List String) :=
  nodes.foldl (fun m n => jsMapSet m (getId n) (getDeps n)) []

/-- The `visit` closure of `calculateRanks`.  The zero-fuel branch is
unreachable from `calculateRanks` (fuel exceeds the number of distinct ids
that can ever be on `proc`). -/
def visit (nm : List (String × List String)) :
    Nat → List String → String → GSt → WithTop ℤ × GSt
  | 0, _, _, s => (⊤, s)
  | fuel + 1, proc, id, s =>
    match s.memo.lookup id with
    | some r => (r, s)
    | none =>
      if id ∈ proc then
        (⊤, { s with warns := s.warns ++
          ["Cycle detected involving node " ++ id] })
      else
        match nm.lookup id with
        | none => (0, s)
        | some deps =>
          let acc := deps.foldl
            (fun (acc : WithTop ℤ × GSt) d =>
              (max acc.1 (visit nm fuel (id :: proc) d acc.2).1,
               (visit nm fuel (id :: proc) d acc.2).2))
            (((-1 : ℤ) : WithTop ℤ), s)
          (acc.1 + 1, { acc.2 with memo := acc.2.memo ++ [(id, acc.1 + 1)] })

/-- part_001 `calculateRanks`: visit every node; returns the memo map and
the console warnings. -/
def calculateRanks {α : Type} (nodes : List α) (getId : α → String)
    (getDeps : α → List String) : List (String × WithTop ℤ) × List String :=
  let nm := nodeMapOf nodes getId getDeps
  let final := nodes.foldl
    (fun s n => (visit nm (nodes.length + 1) [] (getId n) s).2)
    ⟨[], []⟩
  (final.memo, final.warns)

/-- part_001 `topologicalSort`: stable ascending sort of the node list by
rank (`ranks.get(id) || 0`; the comparator difference `ra - rb` is modelled
by the corresponding ≤ test — for two infinite ranks JS compares
`Infinity - Infinity = NaN`, which engines treat as equal, exactly what
`⊤ ≤ ⊤` gives). -/
def topologicalSort {α : Type} (nodes : List α) (getId : α → String)
    (getDeps : α → List String) : List α :=
  let ranks := (calculateRanks nodes getId getDeps).1
  nodes.mergeSort (fun a b =>
    decide (((ranks.lookup (getId a)).getD 0) ≤ ((ranks.lookup (getId b)).getD 0)))

/-! ## params.js expression evaluation (`new Function`)

`evaluateExpr` builds `new Function('t', ...scopeKeys, 'return (expr);')` and
calls it.  A function created this way executes its body with the given
parameters bound and, beyond them, **the global scope**: only the nine
whitelisted names (and `t`) are shadowed, every other identifier resolves
against the JS global object, and any host function reached that way runs.
The model below embeds that name-resolution semantics over a small
expression AST (the parse of the formula string); the global object and the
behaviour of host calls are parameters. -/

/-- An expression AST (the parse of the formula handed to `new Function`). -/
inductive JsExpr where
  | lit (q : ℚ)
  | ident (name : String)
  | member (e : JsExpr) (field : String)
  | call (fn : JsExpr) (args : List JsExpr)
  | add (a b : JsExpr)
  | sub (a b : JsExpr)
  | mul (a b : JsExpr)
  | divi (a b : JsExpr)
deriving Repr

/-- The JS host as seen by a `new Function` body: the global object and the
behaviour of calling a host function value. -/
structure JsHost where
  globals : List (String × JSValue)
  hostCall : String → List JSValue → Except String JSValue

/-- params.js `buildSafeScope`: the nine whitelisted bindings.  The eight
functions are host-function values; `PI` is the host's Math.PI. -/
def buildSafeScope (pi : ℚ) : List (String × JSValue) :=
  [("sin", .native "Math.sin"), ("cos", .native "Math.cos"),
   ("tan", .native "Math.tan"), ("abs", .native "Math.abs"),
   ("min", .native "Math.min"), ("max", .native "Math.max"),
   ("pow", .native "Math.pow"), ("sqrt", .native "Math.sqrt"),
   ("PI", .num pi)]

/-- Evaluation of a `new Function` body: parameters (here `t` plus the safe
scope) shadow the globals; every other identifier resolves against the
global object; reaching a host-function value calls the host. -/
def evalJsExpr (h : JsHost) (env : List (String × JSValue)) :
    JsExpr → Except String JSValue
  | .lit q => .ok (.num q)
  | .ident name =>
    match env.lookup name with
    | some v => .ok v
    | none =>
      match h.globals.lookup name with
      | some v => .ok v
      | none => .error ("ReferenceError: " ++ name ++ " is not defined")
  | .member e field => do
    let v ← evalJsExpr h env e
    .ok (getField v field)
  | .call fn args => do
    let fv ← evalJsExpr h env fn
    let avs ← args.attach.mapM (fun a => evalJsExpr h env a.1)
    match fv with
    | .native tag => h.hostCall tag avs
    | _ => .error "TypeError: value is not a function"
  | .add a b => do
    let va ← evalJsExpr h env a
    let vb ← evalJsExpr h env b
    .ok (.num (asNum va + asNum vb))
  | .sub a b => do
    let va ← evalJsExpr h env a
    let vb ← evalJsExpr h env b
    .ok (.num (asNum va - asNum vb))
  | .mul a b => do
    let va ← evalJsExpr h env a
    let vb ← evalJsExpr h env b
    .ok (.num (asNum va * asNum vb))
  | .divi a b => do
    let va ← evalJsExpr h env a
    let vb ← evalJsExpr h env b
    .ok (.num (asNum va / asNum vb))
termination_by e => sizeOf e
decreasing_by
  all_goals simp_wf
  all_goals try omega
  have hm := List.sizeOf_lt_of_mem a.2
  omega

/-- params.js `evaluateExpr` over a parsed formula: bind `t` and the safe
scope as the function's parameters and evaluate the body in them plus the
global scope. -/
def evaluateExpr (h : JsHost) (pi : ℚ) (e : JsExpr) (t : ℚ) :
    Except String JSValue :=
  evalJsExpr h (("t", .num t) :: buildSafeScope pi) e

end P5

namespace P5

/-! ## Theorems: claim C7 (followPath placement scenario) -/

/-- Translation components of a constant-matrix transform spec. -/
def matrixTranslationOf (tr : Option TransformSpec) : Option Vec2 :=
  match tr with
  | some s =>
    match s.matrix with
    | some (.constant v) => some ⟨(asMat3 v).m6, (asMat3 v).m7⟩
    | _ => none
  | none => none

/-- The unfilled 100×100 rect at the origin of the C7 scenario. -/
def c7Rect : SceneObject :=
  ⟨"rect1", "primitive",
   .obj [("type", .str "rect"), ("width", .num 100), ("height", .num 100)],
   none, none, none, none, none, .undef⟩

/-- The polyline path with points (0,0) and (100,0) of the C7 scenario. -/
def c7Path : SceneObject :=
  ⟨"path1", "primitive",
   .obj [("type", .str "polyline"),
         ("points", .arr [.obj [("x", .num 0), ("y", .num 0)],
                          .obj [("x", .num 100), ("y", .num 0)]])],
   none, none, none, none, none, .undef⟩

/-- The C7 scenario scene: rect, path, and a followPath relation with
constant `u = 1/2` and tangent alignment off. -/
def c7Scene : Scene :=
  ⟨[c7Rect, c7Path],
   [.followPath "rel1" "rect1" "path1" (.constant (.num (1/2))) none none],
   [], [], [], [], none⟩

/-- The rect after the followPath relation ran: its transform replaced by a
constant matrix translating by (50, 0). -/
def c7Moved : SceneObject :=
  { c7Rect with transform := some { emptyTS with
      matrix := some (.constant (mat3ToJS (mat3Translate 50 0))) } }

/-- The rect's evaluated world-space geometry in the C7 scenario. -/
def c7RectEval : EvaluatedObject :=
  ⟨"rect1", some ⟨"rect", [⟨0, -50⟩, ⟨100, -50⟩, ⟨100, 50⟩, ⟨0, 50⟩],
    some ⟨⟨0, -50⟩, ⟨100, 50⟩⟩, none, none⟩, none, none, none, none⟩

/-- The path's evaluated world-space geometry in the C7 scenario. -/
def c7PathEval : EvaluatedObject :=
  ⟨"path1", some ⟨"polyline", [⟨0, 0⟩, ⟨100, 0⟩],
    some ⟨⟨0, 0⟩, ⟨100, 0⟩⟩, none, none⟩, none, none, none, none⟩

lemma c7_expand (O : MathOracle) :
    expandGenerators O [] [c7Rect, c7Path] 0 = .ok ([c7Rect, c7Path], [0, 1], []) := by
  simp [expandGenerators, jsMapSet, c7Rect, c7Path, dummySceneObject,
    List.range_succ, List.foldl, List.foldlM, List.getD, bind, Except.bind,
    pure, Except.pure]

set_option maxHeartbeats 2000000 in
lemma c7_relations (O : MathOracle) :
    applyRelations O [c7Rect, c7Path] [0, 1]
        [.followPath "rel1" "rect1" "path1" (.constant (.num (1/2))) none none] 0
      = .ok ([c7Moved, c7Path], [0, 1], []) := by
  simp [applyRelations, c7Rect, c7Path, c7Moved, jsMapSet,
    dummySceneObject, Relation.enabledF, handleFollowPathRelation,
    evaluatePrimitiveGeometry, geometryToPoints, asPointsE, geomTypeName,
    getField, evaluateTransform, evaluateParam, transformPoints, applyMat3,
    mat3Identity, computeBounds, asNum, pointAlongPath, matMultiplySafe,
    mat3Multiply, mat3Translate, setTransformAt, mat3ToJS, emptyTS,
    List.lookup, List.getD, List.head?, List.set, List.foldlM, List.foldl,
    List.map, List.any, Int.toNat, Option.getD, Option.map,
    bind, Except.bind, pure, Except.pure]
  all_goals norm_num

set_option maxHeartbeats 2000000 in
lemma c7_evalObjs (O : MathOracle) :
    evaluateObjectsScene O [c7Moved, c7Path] 0 [] [0, 1]
      = .ok ([c7RectEval, c7PathEval], []) := by
  simp [evaluateObjectsScene, c7Moved, c7Rect, c7Path, c7RectEval,
    c7PathEval, dummySceneObject, evaluatePrimitiveGeometry, geometryToPoints,
    asPointsE, geomTypeName, getField, evaluateTransform, evaluateParam,
    transformPoints, applyMat3, mat3Identity, computeBounds, asNum, asMat3,
    mat3ToJS, mat3Translate, mat3Multiply, emptyTS,
    List.lookup, List.getD, List.foldlM, List.foldl, List.map, List.any,
    Option.getD, Option.map, bind, Except.bind, pure, Except.pure]
  all_goals norm_num

lemma c7_ops (O : MathOracle) :
    evaluateOperators O [] [c7RectEval, c7PathEval] 0 = .ok ([], []) := by
  simp [evaluateOperators, jsMapSet, c7RectEval, c7PathEval,
    List.foldlM, List.foldl, pure, Except.pure]

/-- C7: in the scenario with an unfilled 100×100 rect at the origin, a
polyline path through (0,0) and (100,0), and a followPath relation with
constant `u = 0.5` and tangent alignment off, evaluating the scene at
`t = 0` rewrites the rect's transform to a constant matrix translating by
exactly (50, 0) (and the rect's evaluated geometry is the 100×100 square
based at x = 0 accordingly) — for every interpretation of the host math
functions, which this code path never invokes. -/
theorem c7_followPath_translation (O : MathOracle) :
    renderScene O c7Scene 0 none
        = .ok (⟨[c7RectEval, c7PathEval], [], .obj []⟩, [c7Moved, c7Path]) ∧
      matrixTranslationOf c7Moved.transform = some ⟨50, 0⟩ := by
  constructor
  · simp only [renderScene, c7Scene, c7_expand O, c7_relations O,
      c7_evalObjs O, c7_ops O, resolveAssets, jsMergeObj, objFieldsOf,
      mergeOperatorResults, Option.getD, List.foldl, List.foldlM,
      bind, Except.bind, pure, Except.pure, List.append_nil, List.nil_append]
  · simp [matrixTranslationOf, c7Moved, asMat3, mat3ToJS, mat3Translate,
      asNum, c7Rect, emptyTS, List.getD]

end P5

namespace P5

/-! ## Theorems: claim C4 (exactness at keyframe times) -/

/-- A keyframe value shape the interpolators reproduce exactly: a number, or
a plain `{x, y}` record of two numbers (the shapes §3 declares for
interpolation). -/
def GoodVal (v : JSValue) : Prop :=
  (∃ q, v = .num q) ∨ (∃ qx qy, v = .obj [("x", .num qx), ("y", .num qy)])

lemma lerp_one (a b : ℚ) : lerp a b 1 = b := by simp [lerp]

lemma interpolateValue_one (a b : JSValue) (h : GoodVal b) :
    interpolateValue a b 1 = b := by
  rcases h with ⟨q, rfl⟩ | ⟨qx, qy, rfl⟩
  · cases a <;> simp [interpolateValue, isVec2V, lerp_one] <;> norm_num
  · cases a <;> simp only [interpolateValue] <;>
      (try split) <;>
      simp [isVec2V, hasField, getField, asNum, lerp_one, List.lookup] <;> norm_num

lemma evalSegments_at_key (interp : Option String)
    (hint : interp = none ∨ interp = some "linear" ∨ interp = some "smooth") :
    ∀ (k0 : Keyframe) (rest : List Keyframe) (kf : Keyframe), kf ∈ rest →
      (k0 :: rest).Pairwise (fun a b => a.t < b.t) → GoodVal kf.value →
      evalSegments interp k0 rest kf.t = kf.value := by
  intro k0 rest
  induction rest generalizing k0 with
  | nil => intro kf h; cases h
  | cons k1 rest' ih =>
    intro kf hmem hpw hgood
    have hpw1 := List.pairwise_cons.mp hpw
    rcases List.mem_cons.mp hmem with rfl | hmem'
    · have hk0 : k0.t < kf.t := hpw1.1 kf (List.mem_cons_self _ _)
      have hspan : kf.t - k0.t ≠ 0 := sub_ne_zero.mpr (ne_of_gt hk0)
      have hloc : (kf.t - k0.t) / (kf.t - k0.t) = 1 := div_self hspan
      simp only [evalSegments, lt_irrefl, if_false]
      rcases hint with rfl | rfl | rfl
      · simp [interpSeg, hspan, hloc, interpolateValue_one _ _ hgood]
      · simp [interpSeg, hspan, hloc, interpolateValue_one _ _ hgood]
      · simp [interpSeg, hspan, hloc]
        rw [show (3 : ℚ) - 2 = 1 from by norm_num]
        exact interpolateValue_one _ _ hgood
    · have h1 : k1.t < kf.t := (List.pairwise_cons.mp hpw1.2).1 kf hmem'
      simp only [evalSegments, if_pos h1]
      exact ih k1 kf hmem' hpw1.2 hgood

lemma pairwise_le_getLast (l : List Keyframe)
    (hpw : l.Pairwise (fun a b => a.t < b.t)) (hne : l ≠ []) :
    ∀ k ∈ l, k.t ≤ (l.getLast hne).t := by
  induction l with
  | nil => intro k hk; cases hk
  | cons x xs ih =>
    intro k hk
    cases xs with
    | nil =>
      rcases List.mem_cons.mp hk with rfl | h
      · simp [List.getLast]
      · cases h
    | cons y ys =>
      have hpw' := List.pairwise_cons.mp hpw
      have hlast : ((x :: y :: ys).getLast hne) = ((y :: ys).getLast (by simp)) :=
        List.getLast_cons (by simp)
      rcases List.mem_cons.mp hk with rfl | h
      · have h1 : k.t < y.t := hpw'.1 y (List.mem_cons_self _ _)
        have h2 := ih hpw'.2 (by simp) y (List.mem_cons_self _ _)
        rw [hlast]
        exact le_trans (le_of_lt h1) h2
      · rw [hlast]
        exact ih hpw'.2 (by simp) k h

lemma pairwise_time_inj (l : List Keyframe)
    (hpw : l.Pairwise (fun a b => a.t < b.t)) :
    ∀ k ∈ l, ∀ k' ∈ l, k.t = k'.t → k = k' := by
  induction l with
  | nil => intro k hk; cases hk
  | cons x xs ih =>
    intro k hk k' hk' heq
    have hpw' := List.pairwise_cons.mp hpw
    rcases List.mem_cons.mp hk with rfl | h
    · rcases List.mem_cons.mp hk' with rfl | h'
      · rfl
      · exact absurd heq (ne_of_lt (hpw'.1 k' h'))
    · rcases List.mem_cons.mp hk' with rfl | h'
      · exact absurd heq.symm (ne_of_lt (hpw'.1 k h))
      · exact ih hpw'.2 k h k' h' heq

end P5

namespace P5

/-- C4 (amended): for a non-empty keyframes param with strictly increasing
key times, clamp extrapolation, and linear or smooth interpolation,
evaluating at any keyframe's time returns that keyframe's value exactly
(for scalar or `{x,y}` keyframe values).  For step interpolation this holds
only at the first and last keyframe times: at an interior keyframe time the
bracketing loop selects the segment ending there and `step` returns its
lower value, i.e. the previous keyframe's value (see the counterexample). -/
theorem c4_keyframe_exactness (d : KfParam)
    (hext : d.extrapolation ≠ some "repeat")
    (hint : d.interpolation = none ∨ d.interpolation = some "linear" ∨
      d.interpolation = some "smooth")
    (hsort : d.keyframes.Pairwise (fun a b => a.t < b.t))
    (kf : Keyframe) (hmem : kf ∈ d.keyframes) (hgood : GoodVal kf.value) :
    evaluateKeyframes d kf.t = .ok kf.value := by
  match hk : d.keyframes with
  | [] => rw [hk] at hmem; cases hmem
  | first :: rest =>
    rw [hk] at hmem hsort
    by_cases h1 : kf.t ≤ first.t
    · have hkf : kf = first := by
        rcases List.mem_cons.mp hmem with rfl | h
        · rfl
        · exact absurd h1 (not_le.mpr ((List.pairwise_cons.mp hsort).1 kf h))
      subst hkf
      simp [evaluateKeyframes, hk, h1, hext]
    · by_cases h2 : ((first :: rest).getLast (by simp)).t ≤ kf.t
      · have hle := pairwise_le_getLast (first :: rest) hsort (by simp) kf hmem
        have heq : kf.t = ((first :: rest).getLast (by simp)).t := le_antisymm hle h2
        have hkl : kf = (first :: rest).getLast (by simp) :=
          pairwise_time_inj (first :: rest) hsort kf hmem _
            (List.getLast_mem _) heq
        simp only [evaluateKeyframes, hk]
        rw [if_neg h1, if_pos h2]
        simp [hext, ← hkl]
      · have hfirst : first.t < kf.t := not_le.mp h1
        have hkf : kf ∈ rest := by
          rcases List.mem_cons.mp hmem with rfl | h
          · exact absurd le_rfl (not_le.mpr hfirst)
          · exact h
        simp only [evaluateKeyframes, hk]
        rw [if_neg h1, if_neg h2]
        exact congrArg Except.ok (evalSegments_at_key d.interpolation hint first rest kf hkf hsort hgood)

/-- C4 (counterexample to the claim as stated): with step interpolation and
keyframes (0,5), (1,10), (2,20), evaluating at the exact keyframe time 1
returns 5 — the previous keyframe's value — not the keyframe's value 10. -/
theorem c4_step_counterexample :
    evaluateKeyframes ⟨[⟨0, .num 5⟩, ⟨1, .num 10⟩, ⟨2, .num 20⟩], some "step", none⟩ 1
        = .ok (.num 5) ∧
      (Except.ok (.num 5) : Except String JSValue) ≠ .ok (.num 10) := by
  constructor
  · simp [evaluateKeyframes, evalSegments, interpSeg, List.getLast]
  · intro h
    simp only [Except.ok.injEq, JSValue.num.injEq] at h
    norm_num at h

/-- C4 witness: the amended theorem applied at a concrete keyframes param,
at the interior keyframe (1,3) with linear interpolation. -/
theorem c4_witness :
    evaluateKeyframes ⟨[⟨0, .num 1⟩, ⟨1, .num 3⟩, ⟨2, .num 7⟩], some "linear", none⟩ 1
      = .ok (.num 3) := by
  have h := c4_keyframe_exactness
    ⟨[⟨0, .num 1⟩, ⟨1, .num 3⟩, ⟨2, .num 7⟩], some "linear", none⟩
    (by simp) (Or.inr (Or.inl rfl))
    (by norm_num [List.pairwise_cons])
    ⟨1, .num 3⟩
    (List.mem_cons_of_mem _ (List.mem_cons_self _ _))
    (Or.inl ⟨3, rfl⟩)
  exact h

end P5

namespace P5

/-! ## Theorems: claim C5 (clamp boundaries and repeat periodicity) -/

lemma jsRem_eq (x d : ℚ) : jsRem x d = x - d * jsTrunc (x / d) := rfl

lemma jsTrunc_of_nonneg {q : ℚ} (h : 0 ≤ q) : jsTrunc q = ⌊q⌋ := if_pos h

/-- The double JS remainder with a positive divisor is the canonical
(floor-based) modulus. -/
lemma jsRem2_canonical (x d : ℚ) (hd : 0 < d) :
    jsRem (jsRem x d + d) d = x - d * ⌊x / d⌋ := by
  have hdne : d ≠ 0 := ne_of_gt hd
  set q := x / d with hq
  have hx : x = d * q := by field_simp [hq]
  have hfr0 : (0 : ℚ) ≤ Int.fract q := Int.fract_nonneg q
  have hfr1 : Int.fract q < 1 := Int.fract_lt_one q
  have hfr : Int.fract q = q - ⌊q⌋ := rfl
  have key : jsRem x d + d = d * Int.fract q + d ∨
      jsRem x d + d = d * Int.fract q := by
    by_cases h : 0 ≤ q
    · left
      rw [jsRem_eq, ← hq, jsTrunc_of_nonneg h, hx, hfr]
      ring
    · have hqlt : q < 0 := not_le.mp h
      by_cases hz : Int.fract q = 0
      · left
        have hqz : (⌊q⌋ : ℚ) = q := by
          have := hfr ▸ hz
          linarith
        have ht : jsTrunc q = ⌊q⌋ := by
          rw [jsTrunc, if_neg h]
          have : ⌊-q⌋ = -⌊q⌋ := by
            rw [show -q = ((-⌊q⌋ : ℤ) : ℚ) by push_cast; linarith]
            exact Int.floor_intCast _
          rw [this]; ring
        rw [jsRem_eq, ← hq, ht, hx, hfr]
        ring
      · right
        have hceil : jsTrunc q = ⌊q⌋ + 1 := by
          rw [jsTrunc, if_neg h]
          have hflt : (⌊q⌋ : ℚ) < q := by
            rcases lt_or_eq_of_le (Int.floor_le q) with hlt | heq
            · exact hlt
            · exact absurd (by rw [hfr]; linarith) hz
          have : ⌊-q⌋ = -⌊q⌋ - 1 := by
            apply Int.floor_eq_iff.mpr
            constructor
            · push_cast
              have := Int.lt_floor_add_one q
              linarith
            · push_cast
              linarith
          rw [this]; ring
        rw [jsRem_eq, ← hq, hceil, hx, hfr]
        push_cast
        ring
  have goal1 : jsRem (d * Int.fract q) d = d * Int.fract q := by
    rw [jsRem_eq]
    have harg : d * Int.fract q / d = Int.fract q := by field_simp
    rw [harg, jsTrunc_of_nonneg hfr0, Int.floor_fract]
    push_cast
    ring
  have goal2 : jsRem (d * Int.fract q + d) d = d * Int.fract q := by
    rw [jsRem_eq]
    have harg : (d * Int.fract q + d) / d = Int.fract q + 1 := by field_simp; ring
    rw [harg, jsTrunc_of_nonneg (by linarith), Int.floor_add_one, Int.floor_fract]
    push_cast
    ring
  have hres : jsRem (jsRem x d + d) d = d * Int.fract q := by
    rcases key with hcase | hcase
    · rw [hcase]; exact goal2
    · rw [hcase]; exact goal1
  rw [hres, hfr, hx]
  ring

end P5

namespace P5

lemma sub_floor_div_mul_bounds (x d : ℚ) (hd : 0 < d) :
    0 ≤ x - d * ⌊x / d⌋ ∧ x - d * ⌊x / d⌋ < d := by
  have h1 := Int.fract_nonneg (x / d)
  have h2 := Int.fract_lt_one (x / d)
  have hfr : Int.fract (x / d) = x / d - ⌊x / d⌋ := rfl
  have hx : x = d * (x / d) := by field_simp
  constructor <;> nlinarith [h1, h2]

lemma wrap_period (x d : ℚ) (hd : 0 < d) :
    jsRem (jsRem (x + d) d + d) d = jsRem (jsRem x d + d) d := by
  rw [jsRem2_canonical _ _ hd, jsRem2_canonical _ _ hd]
  have hdiv : (x + d) / d = x / d + 1 := by field_simp
  rw [hdiv, Int.floor_add_one]
  push_cast
  ring

lemma wrap_interior (x d : ℚ) (hd : 0 < d) (h0 : 0 ≤ x) (h1 : x < d) :
    jsRem (jsRem x d + d) d = x := by
  rw [jsRem2_canonical _ _ hd]
  have : ⌊x / d⌋ = 0 := by
    rw [Int.floor_eq_zero_iff]
    constructor
    · positivity
    · rw [div_lt_one hd] at *
      simpa using h1
  rw [this]
  ring

lemma evalSegments_linear_eq_none (k0 : Keyframe) (l : List Keyframe) (t : ℚ) :
    evalSegments (some "linear") k0 l t = evalSegments none k0 l t := by
  induction l generalizing k0 with
  | nil => rfl
  | cons k1 rest ih =>
    simp only [evalSegments]
    by_cases h : k1.t < t
    · rw [if_pos h, if_pos h, ih]
    · rw [if_neg h, if_neg h]
      simp [interpSeg]

/-- Under repeat extrapolation with positive period and default/linear
interpolation, evaluation at any time is the clamp evaluation of the
canonically wrapped time. -/
lemma evaluateKeyframes_repeat_repr (first : Keyframe) (rest : List Keyframe)
    (interp : Option String) (hint : interp = none ∨ interp = some "linear")
    (hd : 0 < ((first :: rest).getLast (by simp)).t - first.t) (τ : ℚ) :
    evaluateKeyframes ⟨first :: rest, interp, some "repeat"⟩ τ =
      .ok (clampKfEval none first rest
        (jsRem (jsRem (τ - first.t) (((first :: rest).getLast (by simp)).t - first.t)
            + (((first :: rest).getLast (by simp)).t - first.t))
          (((first :: rest).getLast (by simp)).t - first.t) + first.t)) := by
  have hdne : ((first :: rest).getLast (by simp)).t - first.t ≠ 0 := ne_of_gt hd
  by_cases h1 : τ ≤ first.t
  · simp only [evaluateKeyframes]
    rw [if_pos h1]
    simp only [if_pos trivial, valueAtRepeatedTime]
    rw [if_neg hdne]
  · by_cases h2 : ((first :: rest).getLast (by simp)).t ≤ τ
    · simp only [evaluateKeyframes]
      rw [if_neg h1, if_pos h2]
      simp only [if_pos trivial, valueAtRepeatedTime]
      rw [if_neg hdne]
    · have ha : 0 ≤ τ - first.t := le_of_lt (by linarith [not_le.mp h1])
      have hb : τ - first.t < ((first :: rest).getLast (by simp)).t - first.t := by
        have := not_le.mp h2
        linarith
      have hw := wrap_interior (τ - first.t)
        (((first :: rest).getLast (by simp)).t - first.t) hd ha hb
      simp only [evaluateKeyframes]
      rw [if_neg h1, if_neg h2, hw]
      have hwt : τ - first.t + first.t = τ := by ring
      rw [hwt]
      simp only [clampKfEval]
      rw [if_neg h1, if_neg h2]
      rcases hint with rfl | rfl
      · rfl
      · rw [evalSegments_linear_eq_none]

/-- C5 (amended): for a non-empty, strictly time-sorted keyframes param:
under clamp (non-repeat) extrapolation, evaluation at or below the first
key's time returns the first value and at or above the last key's time
returns the last value, unchanged.  Under repeat extrapolation, evaluation
at `t + period` (period = last.t - first.t) equals evaluation at `t` for
every `t` — provided the interpolation is the default/linear one: the
wrapped re-evaluation inside `valueAtRepeatedTime` drops the declared
interpolation mode, so for step or smooth interpolation periodicity fails
(see the counterexample). -/
theorem c5_clamp_and_repeat (d : KfParam) (first : Keyframe)
    (rest : List Keyframe) (hk : d.keyframes = first :: rest)
    (hsort : d.keyframes.Pairwise (fun a b => a.t < b.t)) :
    (d.extrapolation ≠ some "repeat" →
      ∀ τ, (τ ≤ first.t → evaluateKeyframes d τ = .ok first.value) ∧
        (((first :: rest).getLast (by simp)).t ≤ τ →
          evaluateKeyframes d τ =
            .ok (((first :: rest).getLast (by simp)).value))) ∧
    (d.extrapolation = some "repeat" →
      (d.interpolation = none ∨ d.interpolation = some "linear") →
      ∀ τ, evaluateKeyframes d
          (τ + (((first :: rest).getLast (by simp)).t - first.t))
        = evaluateKeyframes d τ) := by
  rw [hk] at hsort
  obtain ⟨ks, int, ext⟩ := d
  simp only at hk
  subst hk
  constructor
  · intro hext τ
    constructor
    · intro h1
      simp only [evaluateKeyframes]
      rw [if_pos h1, if_neg hext]
    · intro h2
      by_cases h1 : τ ≤ first.t
      · have hfl : first.t ≤ ((first :: rest).getLast (by simp)).t :=
          pairwise_le_getLast _ hsort (by simp) first (List.mem_cons_self _ _)
        have heq : first.t = ((first :: rest).getLast (by simp)).t := by linarith
        match rest, hsort, heq with
        | [], _, _ =>
          simp only [evaluateKeyframes]
          rw [if_pos h1, if_neg hext]
          simp [List.getLast]
        | k1 :: rest', hsort, heq =>
          have hlt : first.t < k1.t := (List.pairwise_cons.mp hsort).1 k1 (by simp)
          have hk1 : k1.t ≤ ((k1 :: rest').getLast (by simp)).t :=
            pairwise_le_getLast _ (List.pairwise_cons.mp hsort).2 (by simp) k1
              (List.mem_cons_self _ _)
          rw [List.getLast_cons (by simp)] at heq
          exact absurd heq (by intro hcontra; linarith [hcontra ▸ hk1])
      · simp only [evaluateKeyframes]
        rw [if_neg h1, if_pos h2, if_neg hext]
  · intro hext hint τ
    simp only at hext hint
    subst hext
    match rest, hsort with
    | [], _ =>
      simp [List.getLast]
    | k1 :: rest', hsort =>
      have hlt : first.t < k1.t := (List.pairwise_cons.mp hsort).1 k1 (by simp)
      have hk1 : k1.t ≤ ((k1 :: rest').getLast (by simp)).t :=
        pairwise_le_getLast _ (List.pairwise_cons.mp hsort).2 (by simp) k1
          (List.mem_cons_self _ _)
      have hd : 0 < ((first :: k1 :: rest').getLast (by simp)).t - first.t := by
        rw [List.getLast_cons (by simp)]
        linarith
      rw [evaluateKeyframes_repeat_repr first (k1 :: rest') int hint hd,
        evaluateKeyframes_repeat_repr first (k1 :: rest') int hint hd τ]
      have harg : τ + (((first :: k1 :: rest').getLast (by simp)).t - first.t)
          - first.t = (τ - first.t) +
            (((first :: k1 :: rest').getLast (by simp)).t - first.t) := by ring
      rw [harg, wrap_period _ _ hd]

end P5

namespace P5

/-- C5 (counterexample to the claim as stated): keyframes (0,0), (2,10) with
step interpolation under repeat extrapolation.  At `t = 1` the declared step
interpolation gives 0, but at `t + period = 3` the wrapped re-evaluation
falls back to linear interpolation and gives 5. -/
theorem c5_repeat_counterexample :
    evaluateKeyframes ⟨[⟨0, .num 0⟩, ⟨2, .num 10⟩], some "step", some "repeat"⟩ 3
        = .ok (.num 5) ∧
      evaluateKeyframes ⟨[⟨0, .num 0⟩, ⟨2, .num 10⟩], some "step", some "repeat"⟩ 1
        = .ok (.num 0) ∧
      evaluateKeyframes ⟨[⟨0, .num 0⟩, ⟨2, .num 10⟩], some "step", some "repeat"⟩ 3
        ≠ evaluateKeyframes ⟨[⟨0, .num 0⟩, ⟨2, .num 10⟩], some "step", some "repeat"⟩
            (3 - 2) := by
  have h3 : evaluateKeyframes
      ⟨[⟨0, .num 0⟩, ⟨2, .num 10⟩], some "step", some "repeat"⟩ 3 = .ok (.num 5) := by
    simp [evaluateKeyframes, List.getLast, valueAtRepeatedTime, clampKfEval,
      evalSegments, interpSeg, interpolateValue, lerp, jsRem, jsTrunc]
    norm_num [Int.floor_eq_iff]
  have h1 : evaluateKeyframes
      ⟨[⟨0, .num 0⟩, ⟨2, .num 10⟩], some "step", some "repeat"⟩ 1 = .ok (.num 0) := by
    simp [evaluateKeyframes, List.getLast, evalSegments, interpSeg]
  refine ⟨h3, h1, ?_⟩
  have : (3 : ℚ) - 2 = 1 := by norm_num
  rw [h3, this, h1]
  intro h
  simp only [Except.ok.injEq, JSValue.num.injEq] at h
  norm_num at h

/-- C5 witness: the repeat half of the amended theorem applied at a concrete
linear-interpolation param with period 2, at `t = 5`. -/
theorem c5_witness :
    evaluateKeyframes ⟨[⟨0, .num 0⟩, ⟨2, .num 10⟩], some "linear", some "repeat"⟩
        (5 + (((⟨0, .num 0⟩ : Keyframe) :: [⟨2, .num 10⟩]).getLast (by simp)).t - 0)
      = evaluateKeyframes
          ⟨[⟨0, .num 0⟩, ⟨2, .num 10⟩], some "linear", some "repeat"⟩ 5 := by
  have h := (c5_clamp_and_repeat
    ⟨[⟨0, .num 0⟩, ⟨2, .num 10⟩], some "linear", some "repeat"⟩
    ⟨0, .num 0⟩ [⟨2, .num 10⟩] rfl (by norm_num [List.pairwise_cons])).2
    rfl (Or.inr rfl) 5
  convert h using 2
  all_goals ring

end P5

namespace P5

/-! ## Theorems: claims C9 and C8 (morph/threshold operator behaviour) -/

/-- C9: the morphological operator's effective neighbourhood radius is
`max 1 ⌊radius⌋` — replacing the declared radius by that value changes
nothing, a radius of 0 scans the same 3×3 neighbourhood as radius 1 — and
the declared `iterations` (and `kernel`) parameters have no effect on the
operator pipeline: exactly one pass runs regardless of their values. -/
theorem c9_morph_radius_and_iterations (radius : ℚ) (erode : Bool)
    (inputs : List OpVal) :
    (evaluateMorphOperator radius erode inputs
        = evaluateMorphOperator ((max 1 ⌊radius⌋ : ℤ) : ℚ) erode inputs) ∧
      (∀ (O : MathOracle) (id : String) (refs : List String) (out : String)
        (en : Option Bool) (i j : Option ℚ) (k k' : Option String)
        (objects : List EvaluatedObject) (t : ℚ),
        evaluateOperators O [.morph id erode refs radius i k out en] objects t
          = evaluateOperators O [.morph id erode refs radius j k' out en] objects t) ∧
      evaluateMorphOperator 0 erode inputs = evaluateMorphOperator 1 erode inputs := by
  refine ⟨?_, ?_, ?_⟩
  · simp only [evaluateMorphOperator, Int.floor_intCast, ← max_assoc, max_self]
  · intro O id refs out en i j k k' objects t
    rfl
  · have h0 : (max 1 ⌊(0 : ℚ)⌋) = max 1 ⌊(1 : ℚ)⌋ := by norm_num
    simp only [evaluateMorphOperator, h0]

/-- C8: a threshold or erode/dilate operator whose first resolved input has
no raster field returns that input unchanged as its output and appends no
warning: at the operator level the input value is returned as-is, and a
single-operator pipeline run stores exactly that value under the output ref
with an empty warning list. -/
theorem c8_rasterless_passthrough (level radius : ℚ) (erode : Bool)
    (i : OpVal) (rest : List OpVal) (hnor : i.rasterOf = none) :
    evaluateThresholdOperator level (i :: rest) = .ok i ∧
      evaluateMorphOperator radius erode (i :: rest) = .ok i ∧
      ∀ (O : MathOracle) (id ref out : String) (en : Option Bool)
        (iters : Option ℚ) (kern : Option String)
        (objects : List EvaluatedObject) (o : EvaluatedObject) (t : ℚ),
        (objects.foldl (fun m ob => jsMapSet m ob.objectId ob) []).lookup ref
            = some o →
        o.raster = none →
        en ≠ some false →
        evaluateOperators O [.threshold id [ref] level out en] objects t
            = .ok ([(out, .evo o)], []) ∧
          evaluateOperators O [.morph id erode [ref] radius iters kern out en]
              objects t
            = .ok ([(out, .evo o)], []) := by
  refine ⟨?_, ?_, ?_⟩
  · simp [evaluateThresholdOperator, hnor]
  · simp [evaluateMorphOperator, hnor]
  · intro O id ref out en iters kern objects o t hlook hras hen
    constructor
    · simp [evaluateOperators, List.foldlM, Operator.enabledF, hen,
        Operator.inputRefsF, Operator.oid, hlook, List.reduceOption,
        evaluateThresholdOperator, OpVal.rasterOf, hras,
        bind, Except.bind, pure, Except.pure]
      simp [jsMapSet]
    · simp [evaluateOperators, List.foldlM, Operator.enabledF, hen,
        Operator.inputRefsF, Operator.oid, hlook, List.reduceOption,
        evaluateMorphOperator, OpVal.rasterOf, hras,
        bind, Except.bind, pure, Except.pure]
      simp [jsMapSet]

/-- A concrete oracle (all transcendentals pinned to zero) used to run the
development on closed inputs that never consult them. -/
def zeroOracle : MathOracle :=
  ⟨fun _ => 0, fun _ => 0, fun _ _ => 0, fun _ _ => 0, 0, fun _ _ => .ok .undef⟩

/-- C8 witness: a concrete geometry-only evaluated object passed through a
threshold and an erode single-operator pipeline. -/
theorem c8_witness :
    evaluateOperators zeroOracle
        [.threshold "op1" ["g"] 128 "out1" none]
        [⟨"g", some ⟨"polyline", [], none, none, none⟩, none, none, none, none⟩] 0
      = .ok ([("out1",
          .evo ⟨"g", some ⟨"polyline", [], none, none, none⟩, none, none, none, none⟩)],
        []) := by
  have h := c8_rasterless_passthrough 128 1 true
    (.evo ⟨"g", some ⟨"polyline", [], none, none, none⟩, none, none, none, none⟩)
    [] rfl
  exact (h.2.2 zeroOracle "op1" "g" "out1" none none none
    [⟨"g", some ⟨"polyline", [], none, none, none⟩, none, none, none, none⟩]
    ⟨"g", some ⟨"polyline", [], none, none, none⟩, none, none, none, none⟩ 0
    (by simp [jsMapSet]) rfl (by simp)).1

end P5

namespace P5

/-! ## Theorems: claim C10 (visibility === false skips silently) -/

lemma evaluateObjectsScene_filter (O : MathOracle) (store : List SceneObject)
    (t : ℚ) (assets : List (String × Asset)) (arr : List Nat) :
    evaluateObjectsScene O store t assets
        (arr.filter (fun a =>
          decide ((store.getD a dummySceneObject).visibility ≠ some false)))
      = evaluateObjectsScene O store t assets arr := by
  induction arr with
  | nil => rfl
  | cons a rest ih =>
    by_cases h : (store.getD a dummySceneObject).visibility = some false
    · rw [List.filter_cons_of_neg (by simpa using h)]
      rw [ih]
      conv_rhs => rw [evaluateObjectsScene]
      rw [if_pos h]
    · rw [List.filter_cons_of_pos (by simpa using h)]
      conv_lhs => rw [evaluateObjectsScene]
      conv_rhs => rw [evaluateObjectsScene]
      rw [ih]

lemma evaluateObjectsEv_filter (O : MathOracle) (t : ℚ)
    (assets : List (String × Asset)) (globalStyles : Option (List JSValue))
    (objs : List SceneObject) :
    ∀ emap, evaluateObjectsEv O t assets globalStyles
        (objs.filter (fun ob => decide (ob.visibility ≠ some false))) emap
      = evaluateObjectsEv O t assets globalStyles objs emap := by
  induction objs with
  | nil => intro emap; rfl
  | cons ob rest ih =>
    intro emap
    by_cases h : ob.visibility = some false
    · rw [List.filter_cons_of_neg (by simpa using h)]
      rw [ih emap]
      conv_rhs => rw [show evaluateObjectsEv O t assets globalStyles (ob :: rest) emap
          = evaluateObjectsEv O t assets globalStyles rest emap from by
        simp only [evaluateObjectsEv, h, eq_self_iff_true, if_true]]
    · rw [List.filter_cons_of_pos (by simpa using h)]
      simp only [evaluateObjectsEv, ih]

lemma evaluateObjectsScene_ids (O : MathOracle) (store : List SceneObject)
    (t : ℚ) (assets : List (String × Asset)) :
    ∀ (arr : List Nat) (evs : List EvaluatedObject) (ws : List String),
      evaluateObjectsScene O store t assets arr = .ok (evs, ws) →
      ∀ e ∈ evs, ∃ a ∈ arr,
        e.objectId = (store.getD a dummySceneObject).id ∧
        (store.getD a dummySceneObject).visibility ≠ some false := by
  intro arr
  induction arr with
  | nil =>
    intro evs ws h e he
    simp only [evaluateObjectsScene] at h
    cases h
    cases he
  | cons a rest ih =>
    intro evs ws h e he
    rw [evaluateObjectsScene] at h
    by_cases hv : (store.getD a dummySceneObject).visibility = some false
    · rw [if_pos hv] at h
      obtain ⟨a', ha', h1, h2⟩ := ih evs ws h e he
      exact ⟨a', List.mem_cons_of_mem _ ha', h1, h2⟩
    · rw [if_neg hv] at h
      cases hrec : evaluateObjectsScene O store t assets rest with
      | error msg =>
        simp only [hrec, bind, Except.bind] at h
        iterate 8 (all_goals (try split at h))
        all_goals (try simp_all)
      | ok p =>
        obtain ⟨evsR, wsR⟩ := p
        have ihR := ih evsR wsR hrec
        have step : (∃ x : EvaluatedObject,
              x.objectId = (store.getD a dummySceneObject).id ∧ evs = x :: evsR) ∨
            evs = evsR →
            ∃ a' ∈ a :: rest,
              e.objectId = (store.getD a' dummySceneObject).id ∧
              (store.getD a' dummySceneObject).visibility ≠ some false := by
          intro hcase
          rcases hcase with ⟨x, hx, rfl⟩ | rfl
          · rcases List.mem_cons.mp he with rfl | he'
            · exact ⟨a, List.mem_cons_self _ _, hx, hv⟩
            · obtain ⟨a', ha', h1, h2⟩ := ihR e he'
              exact ⟨a', List.mem_cons_of_mem _ ha', h1, h2⟩
          · obtain ⟨a', ha', h1, h2⟩ := ihR e he
            exact ⟨a', List.mem_cons_of_mem _ ha', h1, h2⟩
        apply step
        simp only [hrec, bind, Except.bind] at h
        iterate 8 (all_goals (try split at h))
        all_goals (try simp_all)
        all_goals (obtain ⟨h1, h2⟩ := h; exact Or.inl ⟨_, rfl, h1.symm⟩)

/-- Claim C10: an object with `visibility === false` is skipped silently.
First two conjuncts: dropping the entries whose `visibility` is `some false`
from the working array (scene-level `evaluateObjects` in scene.js) or from the
object list (evaluator-level `evaluateObjects` in evaluator.js) leaves the
evaluation result — evaluated objects AND warnings — unchanged, so an
invisible object contributes no evaluated entry and no warning.  Third
conjunct: if every entry of the working array sharing the invisible object's
id is itself invisible (no operator-style alias), then no `EvaluatedObject`
in the output carries that id. -/
theorem c10_invisible_objects_skipped_silently (O : MathOracle)
    (store : List SceneObject) (t : ℚ) (assets : List (String × Asset))
    (arr : List Nat) (globalStyles : Option (List JSValue))
    (objs : List SceneObject) :
    (evaluateObjectsScene O store t assets
        (arr.filter (fun a =>
          decide ((store.getD a dummySceneObject).visibility ≠ some false)))
      = evaluateObjectsScene O store t assets arr)
    ∧ (∀ emap, evaluateObjectsEv O t assets globalStyles
        (objs.filter (fun ob => decide (ob.visibility ≠ some false))) emap
      = evaluateObjectsEv O t assets globalStyles objs emap)
    ∧ (∀ evs ws, evaluateObjectsScene O store t assets arr = .ok (evs, ws) →
        ∀ a ∈ arr, (store.getD a dummySceneObject).visibility = some false →
        (∀ a' ∈ arr, (store.getD a' dummySceneObject).id
            = (store.getD a dummySceneObject).id →
          (store.getD a' dummySceneObject).visibility = some false) →
        ∀ e ∈ evs, e.objectId ≠ (store.getD a dummySceneObject).id) := by
  refine ⟨evaluateObjectsScene_filter O store t assets arr,
    evaluateObjectsEv_filter O t assets globalStyles objs, ?_⟩
  intro evs ws h a _ hvis hunique e he hid
  obtain ⟨a', ha', hid', hvis'⟩ := evaluateObjectsScene_ids O store t assets arr evs ws h e he
  exact hvis' (hunique a' ha' (hid ▸ hid'.symm) ▸ rfl)

/-- C10 fixture: an invisible primitive. -/
def c10Hidden : SceneObject :=
  ⟨"hidden", "primitive",
   .obj [("type", .str "rect"), ("width", .num 10), ("height", .num 10)],
   none, none, some false, none, none, .undef⟩

/-- C10 fixture: a visible primitive point. -/
def c10Vis : SceneObject :=
  ⟨"vis", "primitive", .obj [("type", .str "point")],
   none, none, none, none, none, .undef⟩

/-- C10 witness: in the concrete two-object store `[hidden, vis]` with the
hidden object invisible, evaluation yields exactly the visible object's
entry with no warnings, and the claim theorem applied at this input shows no
output entry carries the id `"hidden"`. -/
theorem c10_witness :
    evaluateObjectsScene zeroOracle [c10Hidden, c10Vis] 0 [] [0, 1]
      = .ok ([⟨"vis", some ⟨"point", [⟨0, 0⟩], some ⟨⟨0, 0⟩, ⟨0, 0⟩⟩, none, none⟩,
          none, none, none, none⟩], [])
    ∧ ∀ e ∈ [(⟨"vis", some ⟨"point", [⟨0, 0⟩], some ⟨⟨0, 0⟩, ⟨0, 0⟩⟩, none, none⟩,
          none, none, none, none⟩ : EvaluatedObject)],
        e.objectId ≠ ([c10Hidden, c10Vis].getD 0 dummySceneObject).id := by
  have heval : evaluateObjectsScene zeroOracle [c10Hidden, c10Vis] 0 [] [0, 1]
      = .ok ([⟨"vis", some ⟨"point", [⟨0, 0⟩], some ⟨⟨0, 0⟩, ⟨0, 0⟩⟩, none, none⟩,
          none, none, none, none⟩], []) := by
    simp [evaluateObjectsScene, c10Hidden, c10Vis, List.getD,
      evaluatePrimitiveGeometry, geometryToPoints, geomTypeName, getField, List.lookup,
      evaluateTransform, mat3Identity, transformPoints, applyMat3,
      computeBounds, List.foldl, List.map, asNum, bind, Except.bind,
      pure, Except.pure]
  refine ⟨heval, ?_⟩
  exact (c10_invisible_objects_skipped_silently zeroOracle [c10Hidden, c10Vis]
      0 [] [0, 1] none []).2.2
    [⟨"vis", some ⟨"point", [⟨0, 0⟩], some ⟨⟨0, 0⟩, ⟨0, 0⟩⟩, none, none⟩,
        none, none, none, none⟩] [] heval
    0 (by decide) (by decide)
    (by
      intro a' ha' hid
      fin_cases ha' <;> simp_all [c10Hidden, c10Vis, List.getD])
end P5

namespace P5

/-! ## Theorems: claim C2 (missing reference target) -/

/-- For lists of implemented (`primitive`) objects, evaluator-level
`evaluateObjects` appends nothing to the `RenderResult` warnings: the only
writer of that list is the unimplemented-kind branch. -/
lemma evaluateObjectsEv_prim_ws_nil (O : MathOracle) (t : ℚ)
    (assets : List (String × Asset)) (globalStyles : Option (List JSValue)) :
    ∀ (objs : List SceneObject), (∀ ob ∈ objs, ob.kind = "primitive") →
    ∀ emap evs ws cws,
      evaluateObjectsEv O t assets globalStyles objs emap = .ok (evs, ws, cws) →
      ws = [] := by
  intro objs
  induction objs with
  | nil =>
    intro _ emap evs ws cws h
    simp only [evaluateObjectsEv] at h
    cases h
    rfl
  | cons ob rest ih =>
    intro hk emap evs ws cws h
    have hkr : ∀ o ∈ rest, o.kind = "primitive" :=
      fun o ho => hk o (List.mem_cons_of_mem _ ho)
    have hko : ob.kind = "primitive" := hk ob (List.mem_cons_self _ _)
    simp only [evaluateObjectsEv] at h
    by_cases hv : ob.visibility = some false
    · rw [if_pos hv] at h
      exact ih hkr emap evs ws cws h
    · rw [if_neg hv] at h
      simp only [hko, eq_self_iff_true, if_true, bind, Except.bind] at h
      iterate 6 (all_goals (try split at h))
      all_goals (try (cases h))
      all_goals (exact ih hkr _ _ _ _ (by assumption))

/-- Claim C2 (amended): resolving a reference parameter whose `targetId` is
absent from the evaluated-object map returns the value `0` with exactly one
CONSOLE warning naming that id and never raises; but the warning goes to
`console.warn` only — for implemented object kinds the `RenderResult`
warnings list receives nothing from reference resolution. -/
theorem c2_missing_ref_target (param : JSValue) (m : List (String × JSValue))
    (tid : String) (href : isRefObj param = true)
    (htid : getField param "targetId" = .str tid)
    (habs : m.lookup tid = none) :
    resolveParam param m
      = .ok (.num 0, ["Reference target not found: " ++ tid])
    ∧ ∀ (O : MathOracle) (t : ℚ) (assets : List (String × Asset))
        (gs : Option (List JSValue)) (objs : List SceneObject)
        (emap : List (String × JSValue)) evs ws cws,
        (∀ ob ∈ objs, ob.kind = "primitive") →
        evaluateObjectsEv O t assets gs objs emap = .ok (evs, ws, cws) →
        ws = [] := by
  constructor
  · simp only [resolveParam, href, if_true, htid, habs, jsDisplay]
  · intro O t assets gs objs emap evs ws cws hk h
    exact evaluateObjectsEv_prim_ws_nil O t assets gs objs hk emap evs ws cws h

/-- C2 fixture: a reference parameter to the nonexistent id `ghost`. -/
def c2RefGhost : JSValue :=
  .obj [("type", .str "ref"), ("targetId", .str "ghost"),
        ("targetProp", .str "value")]

/-- C2 fixture: a primitive point whose geometry carries the dangling
reference. -/
def c2Obj : SceneObject :=
  ⟨"r", "primitive", .obj [("type", .str "point"), ("extra", c2RefGhost)],
   none, none, none, none, none, .undef⟩

/-- C2 witness: the amended theorem applied to the concrete dangling
reference over the empty evaluated map. -/
theorem c2_witness :
    resolveParam c2RefGhost []
      = .ok (.num 0, ["Reference target not found: " ++ "ghost"]) :=
  (c2_missing_ref_target c2RefGhost [] "ghost" rfl rfl rfl).1

/-- C2 counterexample to the claim as stated: evaluating a primitive whose
geometry references the nonexistent id `ghost` succeeds with value `0`
substituted, yet the `RenderResult` warnings component (middle) is empty —
the single warning naming the id appears only in the console-warning
component (right), so nothing is appended to the `RenderResult` warnings
list. -/
theorem c2_counterexample :
    evaluateObjectsEv zeroOracle 0 [] none [c2Obj] []
      = .ok ([⟨"r", some ⟨"point", [⟨0, 0⟩], some ⟨⟨0, 0⟩, ⟨0, 0⟩⟩, none, none⟩,
          none, none, none, none⟩],
        [], ["Reference target not found: ghost"])
    ∧ "Reference target not found: ghost" ∉ ([] : List String) := by
  constructor
  · simp [evaluateObjectsEv, c2Obj, c2RefGhost, resolveObjectParams,
      resolveParam, isRefObj, getField, resolveTransformTranslate,
      evaluatePrimitiveGeometry, geometryToPoints, geomTypeName,
      evaluateTransform, mat3Identity, transformPoints, applyMat3,
      computeBounds, jsDisplay, jsMapSet, encodeEvalObj, List.lookup,
      List.foldlM, List.foldl, List.map, asNum, bind, Except.bind,
      pure, Except.pure]
  · simp

end P5

namespace P5

/-! ## Theorems: claim C1 (persistent objects across a render call) -/

/-- Agreement on every `SceneObject` field except `transform`. -/
def agreesExceptTransform (a b : SceneObject) : Prop :=
  a.id = b.id ∧ a.kind = b.kind ∧ a.geometry = b.geometry ∧
  a.style = b.style ∧ a.visibility = b.visibility ∧
  a.generatedBy = b.generatedBy ∧ a.otype = b.otype ∧ a.params = b.params

/-- `s2` keeps every slot of `s1` in place (possibly with a rewritten
transform) and may append derived clones after them. -/
def storeExtends (s1 s2 : List SceneObject) : Prop :=
  s1.length ≤ s2.length ∧ ∀ i < s1.length,
    agreesExceptTransform (s1.getD i dummySceneObject)
      (s2.getD i dummySceneObject)

lemma agreesExceptTransform_refl (a : SceneObject) :
    agreesExceptTransform a a :=
  ⟨rfl, rfl, rfl, rfl, rfl, rfl, rfl, rfl⟩

lemma agreesExceptTransform_trans {a b c : SceneObject}
    (h1 : agreesExceptTransform a b) (h2 : agreesExceptTransform b c) :
    agreesExceptTransform a c := by
  obtain ⟨x1, x2, x3, x4, x5, x6, x7, x8⟩ := h1
  obtain ⟨y1, y2, y3, y4, y5, y6, y7, y8⟩ := h2
  exact ⟨x1.trans y1, x2.trans y2, x3.trans y3, x4.trans y4, x5.trans y5,
    x6.trans y6, x7.trans y7, x8.trans y8⟩

lemma storeExtends_refl (s : List SceneObject) : storeExtends s s :=
  ⟨le_refl _, fun _ _ => agreesExceptTransform_refl _⟩

lemma storeExtends_trans {s1 s2 s3 : List SceneObject}
    (h1 : storeExtends s1 s2) (h2 : storeExtends s2 s3) :
    storeExtends s1 s3 :=
  ⟨h1.1.trans h2.1, fun i hi =>
    agreesExceptTransform_trans (h1.2 i hi) (h2.2 i (lt_of_lt_of_le hi h1.1))⟩

lemma storeExtends_append (s u : List SceneObject) :
    storeExtends s (s ++ u) := by
  refine ⟨by simp, fun i hi => ?_⟩
  rw [List.getD_append _ _ _ _ hi]
  exact agreesExceptTransform_refl _

lemma allocClone_storeExtends (st : WorkSt) (c : SceneObject) :
    storeExtends st.store (allocClone st c).store :=
  storeExtends_append st.store [c]

lemma storeExtends_setTransformAt (st : WorkSt) (addr : Nat) (m : Mat3) :
    storeExtends st.store (setTransformAt st addr m).store := by
  refine ⟨by simp [setTransformAt], fun i hi => ?_⟩
  by_cases he : i = addr
  · subst he
    have hv : (setTransformAt st i m).store.getD i dummySceneObject
        = { st.store.getD i dummySceneObject with
            transform := some { emptyTS with
              matrix := some (.constant (mat3ToJS m)) } } := by
      simp [setTransformAt, List.getD_eq_getElem?_getD, List.getElem?_set,
        hi, List.getD, List.getElem?_eq_getElem hi]
    rw [hv]
    exact ⟨rfl, rfl, rfl, rfl, rfl, rfl, rfl, rfl⟩
  · have hne : ¬addr = i := fun hh => he hh.symm
    have hv : (setTransformAt st addr m).store.getD i dummySceneObject
        = st.store.getD i dummySceneObject := by
      simp [setTransformAt, List.getD_eq_getElem?_getD, List.getElem?_set, hne]
    rw [hv]
    exact agreesExceptTransform_refl _

/-- A monadic fold whose step only extends the store extends the store. -/
lemma foldlM_storeExtends {α : Type} (f : WorkSt → α → Except String WorkSt)
    (hf : ∀ st a st', f st a = .ok st' → storeExtends st.store st'.store) :
    ∀ (l : List α) (st st' : WorkSt), List.foldlM f st l = .ok st' →
      storeExtends st.store st'.store := by
  intro l
  induction l with
  | nil =>
    intro st st' h
    cases h
    exact storeExtends_refl _
  | cons a l ih =>
    intro st st' h
    simp only [List.foldlM, bind, Except.bind] at h
    cases hfa : f st a with
    | error e => rw [hfa] at h; cases h
    | ok st1 =>
      rw [hfa] at h
      exact storeExtends_trans (hf st a st1 hfa) (ih st1 st' h)

/-- A pure fold whose step only appends clones extends the store. -/
lemma foldl_storeExtends (f : WorkSt × Mat3 → Nat → WorkSt × Mat3)
    (hf : ∀ acc i, storeExtends acc.1.store ((f acc i).1.store)) :
    ∀ (l : List Nat) (acc : WorkSt × Mat3) (s : List SceneObject),
      acc.1.store = s → storeExtends s ((l.foldl f acc).1.store) := by
  intro l
  induction l with
  | nil =>
    intro acc s hs
    rw [← hs]
    exact storeExtends_refl _
  | cons a l ih =>
    intro acc s hs
    rw [← hs]
    exact storeExtends_trans (hf acc a) (ih (f acc a) _ rfl)

end P5

namespace P5

lemma expandInstanceGenerator_storeExtends {O : MathOracle} {gid : String}
    {inputIds : List String} {transforms : Option (List TransformSpec)}
    {st : WorkSt} {t : ℚ} {st' : WorkSt}
    (h : expandInstanceGenerator O gid inputIds transforms st t = .ok st') :
    storeExtends st.store st'.store := by
  simp only [expandInstanceGenerator, bind, Except.bind] at h
  iterate 6 (all_goals (try split at h))
  all_goals (try (cases h <;> exact storeExtends_refl _))
  all_goals
    (refine foldlM_storeExtends _ ?_ _ _ _ h
     intro st1 p st2 hgo
     simp only [bind, Except.bind] at hgo
     split at hgo
     all_goals (try (cases hgo))
     exact allocClone_storeExtends _ _)

lemma expandGridGenerator_storeExtends {O : MathOracle} {gid : String}
    {inputIds : Option (List String)} {sourceId : Option String}
    {a b : Option Vec2} {range : Option GridRange}
    {cellTransform : Option TransformSpec} {st : WorkSt} {t : ℚ} {st' : WorkSt}
    (h : expandGridGenerator O gid inputIds sourceId a b range cellTransform
      st t = .ok st') :
    storeExtends st.store st'.store := by
  simp only [expandGridGenerator, bind, Except.bind] at h
  iterate 6 (all_goals (try split at h))
  all_goals (try (cases h <;> exact storeExtends_refl _))
  all_goals
    (refine foldlM_storeExtends _ ?_ _ _ _ h
     intro st1 p st2 hgo
     simp only [bind, Except.bind] at hgo
     split at hgo
     all_goals (try (cases hgo))
     exact allocClone_storeExtends _ _)

lemma expandRadialGenerator_storeExtends {O : MathOracle} {gid : String}
    {inputIds : Option (List String)} {sourceId : Option String}
    {count radius : Option ℚ} {angleRange : Option (ℚ × ℚ)}
    {center : Option Vec2} {st : WorkSt} {t : ℚ} {st' : WorkSt}
    (h : expandRadialGenerator O gid inputIds sourceId count radius angleRange
      center st t = .ok st') :
    storeExtends st.store st'.store := by
  simp only [expandRadialGenerator, bind, Except.bind] at h
  iterate 6 (all_goals (try split at h))
  all_goals (try (cases h <;> exact storeExtends_refl _))
  all_goals
    (refine foldlM_storeExtends _ ?_ _ _ _ h
     intro st1 p st2 hgo
     simp only [bind, Except.bind] at hgo
     split at hgo
     all_goals (try (cases hgo))
     exact allocClone_storeExtends _ _)

lemma handleAttachRelation_storeExtends {O : MathOracle} {rid : String}
    {parentId childId : String} {offset : Option Param}
    {ir is' : Option Bool} {st : WorkSt} {t : ℚ} {st' : WorkSt}
    (h : handleAttachRelation O rid parentId childId offset ir is' st t
      = .ok st') :
    storeExtends st.store st'.store := by
  simp only [handleAttachRelation, bind, Except.bind] at h
  iterate 6 (all_goals (try split at h))
  all_goals (try (cases h <;> exact storeExtends_refl _))
  all_goals (cases h; exact storeExtends_setTransformAt _ _ _)

lemma handleAlignRelation_storeExtends {O : MathOracle} {rid : String}
    {aId bId : String} {anchor : Option String} {st : WorkSt} {t : ℚ}
    {st' : WorkSt}
    (h : handleAlignRelation O rid aId bId anchor st t = .ok st') :
    storeExtends st.store st'.store := by
  simp only [handleAlignRelation, bind, Except.bind] at h
  iterate 7 (all_goals (try split at h))
  all_goals (try (cases h <;> exact storeExtends_refl _))
  all_goals (cases h; exact storeExtends_setTransformAt _ _ _)

lemma handleFollowPathRelation_storeExtends {O : MathOracle} {rid : String}
    {objectId pathId : String} {u : Param} {tangentAlign : Option Bool}
    {st : WorkSt} {t : ℚ} {st' : WorkSt}
    (h : handleFollowPathRelation O rid objectId pathId u tangentAlign st t
      = .ok st') :
    storeExtends st.store st'.store := by
  simp only [handleFollowPathRelation, bind, Except.bind] at h
  iterate 7 (all_goals (try split at h))
  all_goals (try (cases h <;> exact storeExtends_refl _))
  all_goals (cases h; exact storeExtends_setTransformAt _ _ _)

lemma handleRepeatRelation_storeExtends {O : MathOracle} {rid : String}
    {objectId : String} {count : ℚ} {deltaTransform : Option TransformSpec}
    {st : WorkSt} {t : ℚ} {st' : WorkSt}
    (h : handleRepeatRelation O rid objectId count deltaTransform st t
      = .ok st') :
    storeExtends st.store st'.store := by
  simp only [handleRepeatRelation, bind, Except.bind] at h
  iterate 6 (all_goals (try split at h))
  all_goals (try (cases h <;> exact storeExtends_refl _))
  all_goals
    (cases h
     apply foldl_storeExtends
     · intro acc i
       exact allocClone_storeExtends _ _
     · rfl)

lemma expandGenerators_storeExtends {O : MathOracle} {gens : List Generator}
    {base : List SceneObject} {t : ℚ} {store1 : List SceneObject}
    {arr1 : List Nat} {w : List String}
    (h : expandGenerators O gens base t = .ok (store1, arr1, w)) :
    storeExtends base store1 := by
  simp only [expandGenerators, bind, Except.bind] at h
  split at h
  all_goals (try (cases h))
  all_goals
    (refine foldlM_storeExtends _ ?_ _ _ _ (by assumption)
     intro st1 g st2 hg
     cases g with
     | inst gid inputIds transforms =>
       exact expandInstanceGenerator_storeExtends hg
     | grid gid inputIds sourceId a b range cellTransform =>
       exact expandGridGenerator_storeExtends hg
     | radial gid inputIds sourceId count radius angleRange center =>
       exact expandRadialGenerator_storeExtends hg
     | other gid gtype =>
       cases hg
       exact storeExtends_refl _)

lemma applyRelations_storeExtends {O : MathOracle}
    {store : List SceneObject} {arr : List Nat} {relations : List Relation}
    {t : ℚ} {store2 : List SceneObject} {arr2 : List Nat} {w : List String}
    (h : applyRelations O store arr relations t = .ok (store2, arr2, w)) :
    storeExtends store store2 := by
  simp only [applyRelations, bind, Except.bind] at h
  split at h
  all_goals (try (cases h))
  all_goals
    (refine foldlM_storeExtends _ ?_ _ _ _ (by assumption)
     intro st1 r st2 hr
     by_cases he : r.enabledF = some false
     · rw [if_pos he] at hr
       cases hr
       exact storeExtends_refl _
     · rw [if_neg he] at hr
       cases r with
       | attach rid parentId childId offset ir is' en =>
         exact handleAttachRelation_storeExtends hr
       | align rid aId bId anchor en =>
         exact handleAlignRelation_storeExtends hr
       | followPath rid objectId pathId u tangentAlign en =>
         exact handleFollowPathRelation_storeExtends hr
       | repeatRel rid objectId count deltaTransform en =>
         exact handleRepeatRelation_storeExtends hr
       | other rid rtype en =>
         cases hr
         exact storeExtends_refl _)

lemma renderScene_storeExtends {O : MathOracle} {scene : Scene} {t : ℚ}
    {cfg : Option JSValue} {res : RenderResult} {store' : List SceneObject}
    (h : renderScene O scene t cfg = .ok (res, store')) :
    storeExtends scene.objects store' := by
  simp only [renderScene, bind, Except.bind] at h
  iterate 10 (all_goals (try split at h))
  all_goals (try (cases h))
  all_goals
    (exact storeExtends_trans (expandGenerators_storeExtends (by assumption))
      (applyRelations_storeExtends (by assumption)))

end P5

namespace P5

/-- Claim C1 (amended): one render call keeps every persistent object of the
scene in its slot with its id, kind, geometry, style, visibility, provenance,
type and params untouched, and only appends derived clones after them — but
the TRANSFORM of a persistent object targeted by an enabled relation may be
rewritten in place through the shared reference, so the original claim's
"same transform" part is false (see the counterexample). -/
theorem c1_render_preserves_objects_except_transform (O : MathOracle)
    (scene : Scene) (t : ℚ) (cfg : Option JSValue) (res : RenderResult)
    (store' : List SceneObject)
    (h : renderScene O scene t cfg = .ok (res, store')) :
    storeExtends scene.objects store' :=
  renderScene_storeExtends h

/-- C1 fixture: the persistent parent, a primitive point. -/
def c1Parent : SceneObject :=
  ⟨"p", "primitive", .obj [("type", .str "point")],
   none, none, none, none, none, .undef⟩

/-- C1 fixture: the persistent child, a primitive point with no transform. -/
def c1Child : SceneObject :=
  ⟨"c", "primitive", .obj [("type", .str "point")],
   none, none, none, none, none, .undef⟩

/-- C1 fixture: a scene attaching the child to the parent. -/
def c1Scene : Scene :=
  ⟨[c1Parent, c1Child],
   [.attach "r1" "p" "c" none none none none],
   [], [], [], [], none⟩

/-- The child after the attach relation ran: its transform was overwritten in
place with a constant identity matrix. -/
def c1ChildMoved : SceneObject :=
  { c1Child with transform := some { emptyTS with
      matrix := some (.constant (.arr [.num 1, .num 0, .num 0, .num 0,
        .num 1, .num 0, .num 0, .num 0, .num 1])) } }

/-- The parent's evaluated geometry in the C1 fixture. -/
def c1PEval : EvaluatedObject :=
  ⟨"p", some ⟨"point", [⟨0, 0⟩], some ⟨⟨0, 0⟩, ⟨0, 0⟩⟩, none, none⟩,
   none, none, none, none⟩

/-- The child's evaluated geometry in the C1 fixture. -/
def c1CEval : EvaluatedObject :=
  ⟨"c", some ⟨"point", [⟨0, 0⟩], some ⟨⟨0, 0⟩, ⟨0, 0⟩⟩, none, none⟩,
   none, none, none, none⟩

lemma c1_expand :
    expandGenerators zeroOracle [] [c1Parent, c1Child] 0
      = .ok ([c1Parent, c1Child], [0, 1], []) := by
  simp [expandGenerators, jsMapSet, c1Parent, c1Child, dummySceneObject,
    List.range_succ, List.foldl, List.foldlM, List.getD, bind, Except.bind,
    pure, Except.pure]

set_option maxHeartbeats 2000000 in
lemma c1_relations :
    applyRelations zeroOracle [c1Parent, c1Child] [0, 1]
        [.attach "r1" "p" "c" none none none none] 0
      = .ok ([c1Parent, c1ChildMoved], [0, 1], []) := by
  simp [applyRelations, c1Parent, c1Child, c1ChildMoved, jsMapSet,
    dummySceneObject, Relation.enabledF, handleAttachRelation,
    composeInheritedParent, evaluateTransform, evaluateParam, getField,
    matMultiplySafe, mat3Multiply, mat3Identity, mat3Translate,
    setTransformAt, mat3ToJS, emptyTS, asNum,
    List.lookup, List.getD, List.set, List.foldlM, List.foldl, List.map,
    Option.getD, Option.map, bind, Except.bind, pure, Except.pure]

set_option maxHeartbeats 2000000 in
lemma c1_evalObjs :
    evaluateObjectsScene zeroOracle [c1Parent, c1ChildMoved] 0 [] [0, 1]
      = .ok ([c1PEval, c1CEval], []) := by
  simp [evaluateObjectsScene, c1Parent, c1Child, c1ChildMoved, c1PEval,
    c1CEval, dummySceneObject, evaluatePrimitiveGeometry, geometryToPoints,
    asPointsE, geomTypeName, getField, evaluateTransform, evaluateParam,
    transformPoints, applyMat3, mat3Identity, computeBounds, asNum, asMat3,
    mat3ToJS, mat3Multiply, emptyTS,
    List.lookup, List.getD, List.foldlM, List.foldl, List.map, List.any,
    Option.getD, Option.map, bind, Except.bind, pure, Except.pure]

lemma c1_renderEq :
    renderScene zeroOracle c1Scene 0 none
      = .ok (⟨[c1PEval, c1CEval], [], .obj []⟩, [c1Parent, c1ChildMoved]) := by
  simp only [renderScene, c1Scene, c1_expand, c1_relations, c1_evalObjs,
    resolveAssets, jsMergeObj, objFieldsOf, mergeOperatorResults,
    evaluateOperators, Option.getD, List.foldl, List.foldlM,
    bind, Except.bind, pure, Except.pure, List.append_nil, List.nil_append]

/-- C1 witness: the amended theorem applied to the concrete attach scene. -/
theorem c1_witness : storeExtends c1Scene.objects [c1Parent, c1ChildMoved] :=
  c1_render_preserves_objects_except_transform zeroOracle c1Scene 0 none
    ⟨[c1PEval, c1CEval], [], .obj []⟩ [c1Parent, c1ChildMoved] c1_renderEq

/-- C1 counterexample to the claim as stated: after one render call on the
attach scene, the caller's persistent child object (slot 1 of the returned
working store, which holds the same references as `scene.objects`) carries a
transform that differs from the one it had before the call — the attach
relation mutated it in place. -/
theorem c1_counterexample :
    renderScene zeroOracle c1Scene 0 none
      = .ok (⟨[c1PEval, c1CEval], [], .obj []⟩, [c1Parent, c1ChildMoved]) ∧
    ([c1Parent, c1ChildMoved].getD 1 dummySceneObject).transform
      ≠ (c1Scene.objects.getD 1 dummySceneObject).transform := by
  refine ⟨c1_renderEq, ?_⟩
  simp [c1ChildMoved, c1Child, c1Parent, c1Scene, List.getD, emptyTS]

end P5

namespace P5

/-! ## Theorems: claim C3 (expression whitelist) -/

/-- Claim C3 (code bug): the `new Function` evaluator only SHADOWS the nine
whitelisted names with its parameters; every other identifier in an
expression still resolves against the host's global scope, and a host
function reached that way is called.  So an expression like `Date.now()`
reads the global `Date` and executes host code — the whitelist of
`buildSafeScope` does not confine expressions, contradicting the requirement
(and the source's own doc comment). -/
theorem c3_whitelist_escape (h : JsHost) (name : String) (v : JSValue)
    (t pi : ℚ)
    (hname : (("t", JSValue.num t) :: buildSafeScope pi).lookup name = none)
    (hglob : h.globals.lookup name = some v) :
    evaluateExpr h pi (.ident name) t = .ok v
    ∧ ∀ (r : Except String JSValue),
        h.hostCall "Date.now" [] = r →
        h.globals.lookup "Date" = some (.obj [("now", .native "Date.now")]) →
        evaluateExpr h pi (.call (.member (.ident "Date") "now") []) t = r := by
  constructor
  · simp [evaluateExpr, evalJsExpr, hname, hglob]
  · intro r hcall hdate
    simp [evaluateExpr, evalJsExpr, buildSafeScope, List.lookup, hdate,
      getField, List.attach, List.attachWith, List.mapM, List.mapM.loop,
      hcall, bind, Except.bind, pure, Except.pure]

/-- C3 fixture: a host whose global scope holds `Date` with a callable
`now`, returning a fixed timestamp. -/
def c3Host : JsHost :=
  ⟨[("Date", .obj [("now", .native "Date.now")])],
   fun tag _ => if tag = "Date.now" then .ok (.num 1700000000)
     else .error "TypeError: value is not a function"⟩

/-- C3 witness: on the concrete host, the expression `Date` reads the global
object and `Date.now()` executes the host call, both outside the whitelist. -/
theorem c3_witness :
    evaluateExpr c3Host 3 (.ident "Date") 0
        = .ok (.obj [("now", .native "Date.now")])
    ∧ evaluateExpr c3Host 3 (.call (.member (.ident "Date") "now") []) 0
        = .ok (.num 1700000000) := by
  have h := c3_whitelist_escape c3Host "Date"
    (.obj [("now", .native "Date.now")]) 0 3
    (by simp [buildSafeScope, List.lookup]) rfl
  exact ⟨h.1, h.2 (.ok (.num 1700000000)) (by simp [c3Host]) rfl⟩

end P5

namespace P5

/-! ## Theorems: claim C6 (cycles: termination, infinite rank, warning,
topological order a permutation)

The dependency edge relation of the node map, the two state invariants of
the rank walk, and the full per-call contract of `visit` used in the
strong induction on fuel. -/

/-- `a` depends on `b` in the node map. -/
def stepDep (nm : List (String × List String)) (a b : String) : Prop :=
  ∃ deps, List.lookup a nm = some deps ∧ b ∈ deps

/-- `x` lies on a dependency cycle of the node map. -/
def cyclicIn (nm : List (String × List String)) (x : String) : Prop :=
  Relation.TransGen (stepDep nm) x x

/-- Invariant: any `⊤` rank in the memo has a warning on record. -/
def rInvW (s : GSt) : Prop :=
  ∀ y, List.lookup y s.memo = some ⊤ → s.warns ≠ []

/-- Invariant: memoized cyclic nodes carry rank `⊤`. -/
def rInvC (nm : List (String × List String)) (s : GSt) : Prop :=
  ∀ y, cyclicIn nm y → ∀ v, List.lookup y s.memo = some v → v = ⊤

/-- The contract of one `visit` call. -/
def visitBundle (nm : List (String × List String)) (proc : List String)
    (id : String) (s : GSt) (out : WithTop ℤ × GSt) : Prop :=
  rInvW out.2 ∧ rInvC nm out.2 ∧
  (∀ y v, List.lookup y s.memo = some v → List.lookup y out.2.memo = some v) ∧
  (∀ p ∈ proc, List.lookup p s.memo = none → List.lookup p out.2.memo = none) ∧
  (s.warns ≠ [] → out.2.warns ≠ []) ∧
  (out.1 = ⊤ → out.2.warns ≠ []) ∧
  (cyclicIn nm id → out.1 = ⊤) ∧
  (cyclicIn nm id → ¬id ∈ proc → List.lookup id out.2.memo = some ⊤)

lemma lookup_append_some {β : Type} {m l : List (String × β)} {y : String}
    {v : β} (h : List.lookup y m = some v) :
    List.lookup y (m ++ l) = some v := by
  induction m with
  | nil => cases h
  | cons p m ih =>
    simp only [List.cons_append, List.lookup] at h ⊢
    cases hk : y == p.1 with
    | true => simp only [hk] at h ⊢; exact h
    | false => simp only [hk] at h ⊢; exact ih h

lemma lookup_append_none {β : Type} {m : List (String × β)} {y : String}
    (h : List.lookup y m = none) (l : List (String × β)) :
    List.lookup y (m ++ l) = List.lookup y l := by
  induction m with
  | nil => rfl
  | cons p m ih =>
    simp only [List.lookup] at h
    simp only [List.cons_append, List.lookup]
    cases hk : y == p.1 with
    | true => simp only [hk] at h; cases h
    | false => simp only [hk] at h ⊢; exact ih h

lemma lookup_append_single_self {β : Type} {m : List (String × β)}
    {y : String} (h : List.lookup y m = none) (v : β) :
    List.lookup y (m ++ [(y, v)]) = some v := by
  rw [lookup_append_none h]
  simp [List.lookup]

lemma lookup_append_single_ne {β : Type} {m : List (String × β)}
    {y k : String} (h : List.lookup y m = none) (hne : ¬k = y) (v : β) :
    List.lookup y (m ++ [(k, v)]) = none := by
  rw [lookup_append_none h]
  have hk : (y == k) = false := by
    simpa using fun hc => hne hc.symm
  simp [List.lookup, hk]

lemma lookup_append_single_cases {β : Type} {m : List (String × β)}
    {y k : String} {v r : β}
    (h : List.lookup y (m ++ [(k, v)]) = some r) :
    List.lookup y m = some r ∨
      (List.lookup y m = none ∧ k = y ∧ v = r) := by
  cases hm : List.lookup y m with
  | some w =>
    left
    have hs := lookup_append_some (l := [(k, v)]) hm
    have hwr : w = r := Option.some.inj (hs.symm.trans h)
    subst hwr
    rfl
  | none =>
    right
    rw [lookup_append_none hm] at h
    simp only [List.lookup] at h
    cases hk : y == k with
    | true =>
      simp only [hk] at h
      cases h
      exact ⟨rfl, by simpa using (beq_iff_eq.mp hk).symm, rfl⟩
    | false => simp only [hk] at h; cases h

lemma lookup_mem_keys {β : Type} {nm : List (String × β)} {id : String}
    {v : β} (h : List.lookup id nm = some v) :
    id ∈ nm.map Prod.fst := by
  induction nm with
  | nil => cases h
  | cons p nm ih =>
    simp only [List.lookup] at h
    cases hk : id == p.1 with
    | true =>
      have hp : id = p.1 := by simpa using hk
      simp [hp]
    | false =>
      simp only [hk] at h
      simp [ih h]

lemma filter_notMem_cons_le (K : List String) (id : String)
    (proc : List String) :
    (K.filter (fun k => decide (¬k ∈ id :: proc))).length
      ≤ (K.filter (fun k => decide (¬k ∈ proc))).length := by
  induction K with
  | nil => simp
  | cons a K ih =>
    by_cases ha : a ∈ id :: proc
    · rw [List.filter_cons_of_neg (by simp [ha])]
      by_cases hp : a ∈ proc
      · rw [List.filter_cons_of_neg (by simp [hp])]
        exact ih
      · rw [List.filter_cons_of_pos (by simp [hp])]
        exact ih.trans (Nat.le_succ _)
    · have hp : ¬a ∈ proc := fun hc => ha (List.mem_cons_of_mem _ hc)
      rw [List.filter_cons_of_pos (by simp [ha]),
        List.filter_cons_of_pos (by simp [hp])]
      simpa using ih

lemma filter_notMem_cons_lt (K : List String) (id : String)
    (proc : List String) (hmem : id ∈ K) (hid : ¬id ∈ proc) :
    (K.filter (fun k => decide (¬k ∈ id :: proc))).length
      < (K.filter (fun k => decide (¬k ∈ proc))).length := by
  induction K with
  | nil => cases hmem
  | cons a K ih =>
    rcases List.mem_cons.mp hmem with rfl | hmem'
    · rw [List.filter_cons_of_neg (by simp),
        List.filter_cons_of_pos (by simp [hid])]
      exact Nat.lt_succ_of_le (filter_notMem_cons_le _ _ _)
    · by_cases ha : a ∈ id :: proc
      · rw [List.filter_cons_of_neg (by simp [ha])]
        by_cases hp : a ∈ proc
        · rw [List.filter_cons_of_neg (by simp [hp])]
          exact ih hmem'
        · rw [List.filter_cons_of_pos (by simp [hp])]
          exact (ih hmem').trans (Nat.lt_succ_self _)
      · have hp : ¬a ∈ proc := fun hc => ha (List.mem_cons_of_mem _ hc)
        rw [List.filter_cons_of_pos (by simp [ha]),
          List.filter_cons_of_pos (by simp [hp])]
        exact Nat.succ_lt_succ (ih hmem')

lemma jsMapSet_length_le {β : Type} (m : List (String × β)) (k : String)
    (v : β) : (jsMapSet m k v).length ≤ m.length + 1 := by
  rw [jsMapSet]
  split
  · simp
  · simp

lemma nodeMapOf_length_le {α : Type} (nodes : List α) (getId : α → String)
    (getDeps : α → List String) :
    (nodeMapOf nodes getId getDeps).length ≤ nodes.length := by
  have hgen : ∀ (ns : List α) (m : List (String × List String)),
      (ns.foldl (fun m n => jsMapSet m (getId n) (getDeps n)) m).length
        ≤ m.length + ns.length := by
    intro ns
    induction ns with
    | nil => intro m; simp
    | cons n ns ih =>
      intro m
      calc (List.foldl _ (jsMapSet m (getId n) (getDeps n)) ns).length
          ≤ (jsMapSet m (getId n) (getDeps n)).length + ns.length := ih _
        _ ≤ m.length + 1 + ns.length :=
            Nat.add_le_add_right (jsMapSet_length_le m _ _) _
        _ = m.length + (n :: ns).length := by simp [Nat.add_assoc, Nat.add_comm 1]
  simpa using hgen nodes []

/-- Head decomposition of a cycle: the node has a dependency that is itself
on a cycle. -/
lemma cyclicIn_step {nm : List (String × List String)} {x : String}
    (h : cyclicIn nm x) :
    ∃ deps, List.lookup x nm = some deps ∧ ∃ d ∈ deps, cyclicIn nm d := by
  obtain ⟨c, hxc, hcx⟩ := Relation.TransGen.head'_iff.mp h
  obtain ⟨deps, hl, hm⟩ := hxc
  exact ⟨deps, hl, c, hm, Relation.TransGen.tail' hcx ⟨deps, hl, hm⟩⟩

end P5

namespace P5

/-- Contract of the dependency fold of `visit`, abstracted over the
per-dependency call `g` (instantiated with `visit` at one fuel level less
and the extended processing list) and the literal fold step `f`. -/
lemma foldRanks_bundle (nm : List (String × List String))
    (g : String → GSt → WithTop ℤ × GSt) (proc' : List String)
    (f : WithTop ℤ × GSt → String → WithTop ℤ × GSt)
    (hf : ∀ acc d, f acc d = (max acc.1 (g d acc.2).1, (g d acc.2).2))
    (hstep : ∀ d s, rInvW s → rInvC nm s →
      visitBundle nm proc' d s (g d s)) :
    ∀ (ds : List String) (acc : WithTop ℤ × GSt),
      rInvW acc.2 → rInvC nm acc.2 → (acc.1 = ⊤ → acc.2.warns ≠ []) →
      rInvW (ds.foldl f acc).2 ∧
      rInvC nm (ds.foldl f acc).2 ∧
      (∀ y v, List.lookup y acc.2.memo = some v →
        List.lookup y (ds.foldl f acc).2.memo = some v) ∧
      (∀ p ∈ proc', List.lookup p acc.2.memo = none →
        List.lookup p (ds.foldl f acc).2.memo = none) ∧
      (acc.2.warns ≠ [] → (ds.foldl f acc).2.warns ≠ []) ∧
      ((ds.foldl f acc).1 = ⊤ → (ds.foldl f acc).2.warns ≠ []) ∧
      (acc.1 ≤ (ds.foldl f acc).1) ∧
      (∀ d ∈ ds, cyclicIn nm d → (ds.foldl f acc).1 = ⊤)
      := by
  intro ds
  induction ds with
  | nil =>
    intro acc hW hC hT
    refine ⟨hW, hC, fun y v hv => hv, fun p _ hp => hp, fun h => h, hT,
      le_refl _, fun d hd => absurd hd (List.not_mem_nil d)⟩
  | cons d ds ih =>
    intro acc hW hC hT
    rw [List.foldl_cons, hf acc d]
    obtain ⟨bW, bC, bMono, bProc, bWarn, bTop, bCyc, bCycMemo⟩ :=
      hstep d acc.2 hW hC
    have hT' : (max acc.1 (g d acc.2).1 = ⊤) →
        (g d acc.2).2.warns ≠ [] := by
      intro hmax
      rcases max_cases acc.1 (g d acc.2).1 with ⟨he, _⟩ | ⟨he, _⟩
      · exact bWarn (hT (he ▸ hmax))
      · exact bTop (he ▸ hmax)
    obtain ⟨iW, iC, iMono, iProc, iWarn, iTop, iLe, iCyc⟩ :=
      ih (max acc.1 (g d acc.2).1, (g d acc.2).2) bW bC hT'
    refine ⟨iW, iC, ?_, ?_, ?_, iTop, ?_, ?_⟩
    · intro y v hv
      exact iMono y v (bMono y v hv)
    · intro p hp hnone
      exact iProc p hp (bProc p hp hnone)
    · intro hwa
      exact iWarn (bWarn hwa)
    · exact le_trans (le_max_left _ _) iLe
    · intro d' hd' hcyc
      rcases List.mem_cons.mp hd' with rfl | hd''
      · have htop : (g d' acc.2).1 = ⊤ := bCyc hcyc
        have hmax : max acc.1 (g d' acc.2).1 = ⊤ := by
          rw [htop]
          exact max_eq_right le_top
        exact top_le_iff.mp (hmax ▸ iLe)
      · exact iCyc d' hd'' hcyc

end P5

namespace P5

/-- The full per-call contract of `visit`: invariants are preserved, memo
entries persist, no processing-list id gains an entry, warnings persist, a
`⊤` result has a warning on record, and a cyclic node yields (and, when not
already on the processing list, memoizes) rank `⊤` — all under the fuel
bound `calculateRanks` supplies. -/
lemma visit_bundle (nm : List (String × List String)) :
    ∀ (fuel : Nat) (proc : List String) (id : String) (s : GSt),
      ((nm.map Prod.fst).filter (fun k => decide (¬k ∈ proc))).length + 1
        ≤ fuel →
      rInvW s → rInvC nm s →
      visitBundle nm proc id s (visit nm fuel proc id s) := by
  intro fuel
  induction fuel with
  | zero =>
    intro proc id s hfuel
    exact absurd hfuel (Nat.not_succ_le_zero _)
  | succ fuel IH =>
    intro proc id s hfuel hW hC
    cases hm : List.lookup id s.memo with
    | some r =>
      have hv : visit nm (fuel + 1) proc id s = (r, s) := by
        simp only [visit, hm]
      rw [hv]
      refine ⟨hW, hC, fun y v hv' => hv', fun p _ hp => hp, fun h => h,
        ?_, ?_, ?_⟩
      · intro hrt
        exact hW id (hrt ▸ hm)
      · intro hcyc
        exact hC id hcyc r hm
      · intro hcyc _
        have ht := hC id hcyc r hm
        rw [← ht]
        exact hm
    | none =>
      by_cases hp : id ∈ proc
      · have hv : visit nm (fuel + 1) proc id s
            = (⊤, { s with warns := s.warns ++
                ["Cycle detected involving node " ++ id] }) := by
          simp only [visit, hm, if_pos hp]
        rw [hv]
        have hwne : s.warns ++ ["Cycle detected involving node " ++ id]
            ≠ [] := by simp
        refine ⟨fun y _ => hwne, hC, fun y v hv' => hv', fun p _ hp' => hp',
          fun _ => hwne, fun _ => hwne, fun _ => rfl, ?_⟩
        intro _ hnp
        exact absurd hp hnp
      · cases hnm : List.lookup id nm with
        | none =>
          have hv : visit nm (fuel + 1) proc id s = (0, s) := by
            simp only [visit, hm, if_neg hp, hnm]
          rw [hv]
          have hnc : ¬cyclicIn nm id := by
            intro hcyc
            obtain ⟨deps, hl, _⟩ := cyclicIn_step hcyc
            rw [hl] at hnm
            cases hnm
          refine ⟨hW, hC, fun y v hv' => hv', fun p _ hp' => hp',
            fun h => h, ?_, fun hcyc => absurd hcyc hnc,
            fun hcyc _ => absurd hcyc hnc⟩
          intro h0
          exact absurd h0 (by simp)
        | some deps =>
          have hfuel' : ((nm.map Prod.fst).filter
              (fun k => decide (¬k ∈ id :: proc))).length + 1 ≤ fuel := by
            have hlt := filter_notMem_cons_lt (nm.map Prod.fst) id proc
              (lookup_mem_keys hnm) hp
            omega
          have hstep : ∀ d s', rInvW s' → rInvC nm s' →
              visitBundle nm (id :: proc) d s'
                (visit nm fuel (id :: proc) d s') :=
            fun d s' hW' hC' => IH (id :: proc) d s' hfuel' hW' hC'
          have hfold := foldRanks_bundle nm
            (fun d s' => visit nm fuel (id :: proc) d s') (id :: proc)
            (fun (acc : WithTop ℤ × GSt) d =>
              (max acc.1 (visit nm fuel (id :: proc) d acc.2).1,
               (visit nm fuel (id :: proc) d acc.2).2))
            (fun acc d => rfl) hstep deps (((-1 : ℤ) : WithTop ℤ), s)
            hW hC (by simp)
          obtain ⟨fW, fC, fMono, fProc, fWarn, fTop, fLe, fCyc⟩ := hfold
          have hv : visit nm (fuel + 1) proc id s
              = ((deps.foldl
                  (fun (acc : WithTop ℤ × GSt) d =>
                    (max acc.1 (visit nm fuel (id :: proc) d acc.2).1,
                     (visit nm fuel (id :: proc) d acc.2).2))
                  (((-1 : ℤ) : WithTop ℤ), s)).1 + 1,
                { (deps.foldl
                  (fun (acc : WithTop ℤ × GSt) d =>
                    (max acc.1 (visit nm fuel (id :: proc) d acc.2).1,
                     (visit nm fuel (id :: proc) d acc.2).2))
                  (((-1 : ℤ) : WithTop ℤ), s)).2 with
                  memo := (deps.foldl
                    (fun (acc : WithTop ℤ × GSt) d =>
                      (max acc.1 (visit nm fuel (id :: proc) d acc.2).1,
                       (visit nm fuel (id :: proc) d acc.2).2))
                    (((-1 : ℤ) : WithTop ℤ), s)).2.memo ++
                    [(id, (deps.foldl
                      (fun (acc : WithTop ℤ × GSt) d =>
                        (max acc.1 (visit nm fuel (id :: proc) d acc.2).1,
                         (visit nm fuel (id :: proc) d acc.2).2))
                      (((-1 : ℤ) : WithTop ℤ), s)).1 + 1)] }) := by
            simp only [visit, hm, if_neg hp, hnm]
          rw [hv]
          set F : WithTop ℤ × GSt := deps.foldl
            (fun (acc : WithTop ℤ × GSt) d =>
              (max acc.1 (visit nm fuel (id :: proc) d acc.2).1,
               (visit nm fuel (id :: proc) d acc.2).2))
            (((-1 : ℤ) : WithTop ℤ), s) with hF
          have hcycTop : cyclicIn nm id → F.1 + 1 = ⊤ := by
            intro hcyc
            obtain ⟨deps', hl', d, hd, hcycd⟩ := cyclicIn_step hcyc
            rw [hnm] at hl'
            cases hl'
            have hFtop := fCyc d hd hcycd
            rw [hFtop]
            simp
          have hmemoIdNone : List.lookup id F.2.memo = none :=
            fProc id (List.mem_cons_self _ _) hm
          refine ⟨?_, ?_, ?_, ?_, ?_, ?_, hcycTop, ?_⟩
          · intro y hy
            rcases lookup_append_single_cases hy with hold | ⟨_, _, hvr⟩
            · exact fW y hold
            · have hFtop : F.1 = ⊤ := by
                rcases WithTop.add_eq_top.mp hvr with h1 | h1
                · exact h1
                · exact absurd h1 (by simp)
              exact fTop hFtop
          · intro y hcyc v hv'
            rcases lookup_append_single_cases hv' with hold | ⟨_, hky, hvr⟩
            · exact fC y hcyc v hold
            · rw [← hvr]
              exact hcycTop (hky ▸ hcyc)
          · intro y v hv'
            exact lookup_append_some (fMono y v hv')
          · intro p hpmem hnone
            have hpn := fProc p (List.mem_cons_of_mem _ hpmem) hnone
            have hpne : ¬id = p := fun hc => hp (hc ▸ hpmem)
            exact lookup_append_single_ne hpn hpne _
          · intro hwa
            exact fWarn hwa
          · intro htop
            have hFtop : F.1 = ⊤ := by
              rcases WithTop.add_eq_top.mp htop with h1 | h1
              · exact h1
              · exact absurd h1 (by simp)
            exact fTop hFtop
          · intro hcyc _
            have hrank := hcycTop hcyc
            rw [← hrank]
            exact lookup_append_single_self hmemoIdNone _

end P5

namespace P5

/-- The top-level node loop of `calculateRanks`: invariants hold at the end,
memo entries persist, and every visited node on a cycle ends memoized `⊤`. -/
lemma visitFold_top {α : Type} (nm : List (String × List String))
    (getId : α → String) (fuel : Nat)
    (hfuel : (nm.map Prod.fst).length + 1 ≤ fuel) :
    ∀ (ns : List α) (s : GSt), rInvW s → rInvC nm s →
      rInvW (ns.foldl (fun s n => (visit nm fuel [] (getId n) s).2) s) ∧
      rInvC nm (ns.foldl (fun s n => (visit nm fuel [] (getId n) s).2) s) ∧
      (∀ y v, List.lookup y s.memo = some v →
        List.lookup y
          (ns.foldl (fun s n => (visit nm fuel [] (getId n) s).2) s).memo
          = some v) ∧
      (∀ n ∈ ns, cyclicIn nm (getId n) →
        List.lookup (getId n)
          (ns.foldl (fun s n => (visit nm fuel [] (getId n) s).2) s).memo
          = some ⊤) := by
  have hfuel0 : ((nm.map Prod.fst).filter
      (fun k => decide (¬k ∈ ([] : List String)))).length + 1 ≤ fuel := by
    simpa using hfuel
  intro ns
  induction ns with
  | nil =>
    intro s hW hC
    exact ⟨hW, hC, fun y v hv => hv,
      fun n hn => absurd hn (List.not_mem_nil n)⟩
  | cons n ns ih =>
    intro s hW hC
    obtain ⟨bW, bC, bMono, bProc, bWarn, bTop, bCyc, bCycMemo⟩ :=
      visit_bundle nm fuel [] (getId n) s hfuel0 hW hC
    obtain ⟨iW, iC, iMono, iCyc⟩ :=
      ih (visit nm fuel [] (getId n) s).2 bW bC
    rw [List.foldl_cons]
    refine ⟨iW, iC, ?_, ?_⟩
    · intro y v hv
      exact iMono y v (bMono y v hv)
    · intro n' hn' hcyc
      rcases List.mem_cons.mp hn' with rfl | hn''
      · exact iMono _ _ (bCycMemo hcyc (List.not_mem_nil _))
      · exact iCyc n' hn'' hcyc

/-- Claim C6: on a node set whose dependency graph has a cycle through the
id of one of the nodes, `calculateRanks` terminates (it is a total
function), memoizes rank `+∞` (`⊤`) for that id, leaves at least one cycle
warning on record, and `topologicalSort` returns a permutation of the input
nodes — every input node appears exactly as often as it was passed in. -/
theorem c6_cycle_ranks {α : Type} [BEq α] (nodes : List α)
    (getId : α → String) (getDeps : α → List String) (x : String)
    (hcyc : cyclicIn (nodeMapOf nodes getId getDeps) x)
    (hx : ∃ n ∈ nodes, getId n = x) :
    List.lookup x (calculateRanks nodes getId getDeps).1 = some ⊤ ∧
    (calculateRanks nodes getId getDeps).2 ≠ [] ∧
    (topologicalSort nodes getId getDeps).Perm nodes ∧
    ∀ a, (topologicalSort nodes getId getDeps).count a = nodes.count a := by
  obtain ⟨n, hn, rfl⟩ := hx
  have hfuel : ((nodeMapOf nodes getId getDeps).map Prod.fst).length + 1
      ≤ nodes.length + 1 := by
    have := nodeMapOf_length_le nodes getId getDeps
    simp only [List.length_map]
    omega
  have hW0 : rInvW ⟨[], []⟩ := fun y hy => by cases hy
  have hC0 : rInvC (nodeMapOf nodes getId getDeps) ⟨[], []⟩ :=
    fun y _ v hv => by cases hv
  obtain ⟨fW, _, _, fCyc⟩ := visitFold_top (nodeMapOf nodes getId getDeps)
    getId (nodes.length + 1) hfuel nodes ⟨[], []⟩ hW0 hC0
  have hmemo : List.lookup (getId n)
      (calculateRanks nodes getId getDeps).1 = some ⊤ := by
    simp only [calculateRanks]
    exact fCyc n hn hcyc
  have hwarn : (calculateRanks nodes getId getDeps).2 ≠ [] := by
    simp only [calculateRanks]
    exact fW (getId n) (by simpa only [calculateRanks] using hmemo)
  have hperm : (topologicalSort nodes getId getDeps).Perm nodes := by
    simp only [topologicalSort]
    exact List.mergeSort_perm nodes _
  exact ⟨hmemo, hwarn, hperm, fun a => hperm.countP_eq _⟩

/-- C6 witness: the two-node cycle A ↔ B.  Rank lookup, warning presence and
the permutation/count facts follow from the claim theorem at this input. -/
theorem c6_witness :
    List.lookup "A"
        (calculateRanks [("A", ["B"]), ("B", ["A"])] Prod.fst Prod.snd).1
      = some ⊤ ∧
    (calculateRanks [("A", ["B"]), ("B", ["A"])] Prod.fst Prod.snd).2 ≠ [] ∧
    (topologicalSort [("A", ["B"]), ("B", ["A"])] Prod.fst Prod.snd).Perm
      [("A", ["B"]), ("B", ["A"])] ∧
    ∀ a, (topologicalSort [("A", ["B"]), ("B", ["A"])] Prod.fst
        Prod.snd).count a
      = [("A", ["B"]), ("B", ["A"])].count a := by
  have e1 : stepDep (nodeMapOf [("A", ["B"]), ("B", ["A"])] Prod.fst
      Prod.snd) "A" "B" :=
    ⟨["B"], by simp [nodeMapOf, jsMapSet, List.lookup], by decide⟩
  have e2 : stepDep (nodeMapOf [("A", ["B"]), ("B", ["A"])] Prod.fst
      Prod.snd) "B" "A" :=
    ⟨["A"], by simp [nodeMapOf, jsMapSet, List.lookup], by decide⟩
  exact c6_cycle_ranks [("A", ["B"]), ("B", ["A"])] Prod.fst Prod.snd "A"
    (Relation.TransGen.head e1 (Relation.TransGen.single e2))
    ⟨("A", ["B"]), by decide, rfl⟩

end P5
